import Mathlib

/-!
Shallow embedding of the form-fill job pipeline of
`app/services/form_fill_service.py` (plus the pieces of `app/schemas.py`
and `app/services/storage_service.py` it relies on).

Conventions of the embedding:
* Python `dict[str, X]` values are association lists `List (String × X)`
  (insertion ordered, keys unique at every construction site).
* Python truthiness on optional strings (`x or d`) is modelled by
  `strOrElse` / `strTruthy` / `strOrNone` below: `None` and `""` are falsy.
* Every external `await` (S3, HTTP, OpenAI) is an oracle recorded in `Env`;
  a raised `HTTPException` is `Except.error detail`.
* The background task mutates the job record only between `await` points,
  so the observable snapshots of a job are the states at those points; the
  run function returns that snapshot trace.  Field workers are executed in
  field order: each worker writes only its own field and the aggregate
  counters are recomputed from the whole map on every write, so this is a
  faithful schedule of the `asyncio.gather` fan-out.
* Timestamps (`createdAt`/`updatedAt`, `now_iso`) and identifiers
  (`jobId`, `userId`) are omitted: no claim observes them.  Float rect
  coordinates are modelled as rationals; no claim computes with them.
-/

namespace FormFillService

/-- Python truthiness of an optional string: `None` and `""` are falsy. -/
def strTruthy : Option String → Bool
  | none => false
  | some s => s ≠ ""

/-- Python `x or d` for an optional string `x` and string default `d`. -/
def strOrElse (x : Option String) (d : String) : String :=
  match x with
  | none => d
  | some s => if s = "" then d else s

/-- Python `x or None` for an optional string: collapses `""` to `None`. -/
def strOrNone (x : Option String) : Option String :=
  match x with
  | none => none
  | some s => if s = "" then none else some s

/-- Python `str.lower()`: character-wise lowering of the underlying
character list (`String.toLower` itself is opaque to the kernel). -/
def py_lower (s : String) : String :=
  ⟨s.data.map Char.toLower⟩

/-- Python `str.strip()`: drop leading and trailing whitespace from the
underlying character list (`String.trim` itself is opaque to the
kernel). -/
def py_strip (s : String) : String :=
  ⟨((s.data.dropWhile Char.isWhitespace).reverse.dropWhile Char.isWhitespace).reverse⟩

/-- Python `a or b` on optional integers (`0` and `None` are falsy),
used for the `maxlen`/`max_len` attribute probe. -/
def natOptOr (a b : Option Nat) : Option Nat :=
  match a with
  | none => b
  | some n => if n = 0 then b else some n

/-! ## Data model (`app/schemas.py` and the pymupdf widget surface) -/

/-- One extracted fact inside a stored `info.json`
(`ExtractedFact` in `app/schemas.py`). -/
structure ExtractedFact where
  name : String
  value : String
  short_description : Option String
deriving DecidableEq, Repr

/-- A parsed `info.json` payload (`InformationExtractionResult`). -/
structure InformationExtractionResult where
  document_description : String
  structured_information : List ExtractedFact
deriving DecidableEq, Repr

/-- `FactRecord` dataclass of `form_fill_service.py`. -/
structure FactRecord where
  name : String
  value : String
  description : Option String
  source : Option String
deriving DecidableEq, Repr

/-- The interactive-form widget surface read from pymupdf.  `rect` is the
bounding box `[x0, y0, x1, y1]`; `maxlen`/`max_len` are the two attribute
names probed by `getattr` in `_extract_form_schema`. -/
structure Widget where
  field_type_string : Option String
  field_name : Option String
  field_value : Option String
  field_label : Option String
  rect : List Rat
  field_flags : Nat
  maxlen : Option Nat
  max_len : Option Nat
deriving DecidableEq, Repr

/-- A PDF document, reduced to its pages of widgets: this is all the
pipeline reads from or writes to the byte stream. -/
abbrev Doc := List (List Widget)

/-- `FormFieldSchema` of `app/schemas.py`.  The mutable outcome mirrors
`slug`/`decision`/`filledValue` are omitted: they are written by the fill
workers but never read back by the pipeline (injection uses the job's
field-status map), and no claim observes them. -/
structure FormFieldSchema where
  name : String
  page : Nat
  rect : List Rat
  label : Option String
  placeholder : Option String
  maxLength : Option Nat
  required : Bool
deriving DecidableEq, Repr

/-- `FormSchema` of `app/schemas.py` (`extractedAt` timestamp omitted). -/
structure FormSchema where
  formSlug : String
  fields : List FormFieldSchema
  totalFields : Nat
deriving DecidableEq, Repr

/-- `FieldFillDecision` of `app/schemas.py`. -/
structure FieldFillDecision where
  field_name : String
  action : String
  value : Option String
  confidence : Option Rat
  reason : Option String
deriving DecidableEq, Repr

/-- `FieldFillStatus` of `app/schemas.py`. -/
structure FieldFillStatus where
  fieldName : String
  status : String
  value : Option String
  confidence : Option Rat
  reason : Option String
deriving DecidableEq, Repr

/-- One entry of the user's manifest, reduced to what
`_collect_structured_facts` reads.  `info` folds together the
`entry.infoKey` probe, the S3 download and the pydantic validation of the
downloaded payload. -/
inductive InfoOutcome where
  /-- `entry.infoKey` is falsy: the entry is skipped. -/
  | noKey : InfoOutcome
  /-- `download_s3_object(entry.infoKey)` raised: logged and skipped. -/
  | loadFailed : InfoOutcome
  /-- the payload failed pydantic validation: logged and skipped. -/
  | invalid : InfoOutcome
  /-- a validated `InformationExtractionResult`. -/
  | ok (info : InformationExtractionResult) : InfoOutcome
deriving DecidableEq, Repr

/-- `ManifestFileEntry`, reduced to the attributes the form-fill pipeline
reads (`slug`, `fileName` and the extraction-result payload). -/
structure ManifestFileEntry where
  slug : String
  fileName : Option String
  info : InfoOutcome
deriving DecidableEq, Repr

/-- The in-registry job record (`_create_job`), restricted to the keys the
pipeline reads or writes and a claim can observe through `get`. -/
structure Job where
  status : String
  message : Option String
  filledFormUrl : Option String
  totalFields : Nat
  filledFields : Nat
  skippedFields : Nat
  errorFields : Nat
  fields : List (String × FieldFillStatus)
  fieldOrder : List String
deriving DecidableEq, Repr

/-- `_create_job`: a fresh job in status `queued` with zeroed counters. -/
def create_job : Job :=
  { status := "queued"
    message := none
    filledFormUrl := none
    totalFields := 0
    filledFields := 0
    skippedFields := 0
    errorFields := 0
    fields := []
    fieldOrder := [] }

/-! ## Job record updates -/

/-- Number of field statuses carrying a given status label. -/
def count_status (fields : List (String × FieldFillStatus)) (s : String) : Nat :=
  (fields.filter (fun p => p.2.status == s)).length

/-- `_update_job_counts`: recompute the three aggregate counters from the
full field map. -/
def update_job_counts (j : Job) : Job :=
  { j with
    filledFields := count_status j.fields "filled"
    skippedFields := count_status j.fields "skipped"
    errorFields := count_status j.fields "error" }

/-- `_set_job_status`: set the status label and, when a message is given,
the message. -/
def set_job_status (j : Job) (label : String) (msg : Option String) : Job :=
  { j with
    status := label
    message := match msg with
      | some m => some m
      | none => j.message }

/-- A `model_copy(update=...)` payload for a `FieldFillStatus`: `none`
means the keyword was not passed. -/
structure FieldUpdate where
  status : Option String
  value : Option (Option String)
  confidence : Option (Option Rat)
  reason : Option (Option String)

/-- Apply a `model_copy(update=...)` payload (the `fieldName` key is never
updated at any call site). -/
def apply_field_update (f : FieldFillStatus) (u : FieldUpdate) : FieldFillStatus :=
  { fieldName := f.fieldName
    status := u.status.getD f.status
    value := u.value.getD f.value
    confidence := u.confidence.getD f.confidence
    reason := u.reason.getD f.reason }

/-- `_set_field_status`: insert a `pending` record when the name is absent,
apply the update to the named entry, then recompute the counters. -/
def set_field_status (j : Job) (fname : String) (u : FieldUpdate) : Job :=
  let withField :=
    if (j.fields.lookup fname).isSome then j.fields
    else j.fields ++ [(fname, ⟨fname, "pending", none, none, none⟩)]
  let updated :=
    withField.map (fun p => if p.1 = fname then (p.1, apply_field_update p.2 u) else p)
  update_job_counts { j with fields := updated }

/-! ## Fact aggregation (`_collect_structured_facts`, `_format_facts_text`) -/

/-- The fact records contributed by one manifest entry
(the loop body of `_collect_structured_facts`). -/
def entry_facts (e : ManifestFileEntry) : List FactRecord :=
  match e.info with
  | .noKey => []
  | .loadFailed => []
  | .invalid => []
  | .ok info =>
      info.structured_information.map (fun fact =>
        { name := fact.name
          value := fact.value
          description := fact.short_description
          source := some (strOrElse (some e.slug) (strOrElse e.fileName "upload")) })

/-- The description contributed by one manifest entry. -/
def entry_descriptions (e : ManifestFileEntry) : List String :=
  match e.info with
  | .noKey => []
  | .loadFailed => []
  | .invalid => []
  | .ok info => if info.document_description ≠ "" then [info.document_description] else []

/-- `_collect_structured_facts`: entries that are missing, unreadable or
invalid are skipped; raises `HTTP 400` when zero facts were collected. -/
def collect_structured_facts (entries : List ManifestFileEntry) :
    Except String (String × List FactRecord) :=
  let facts := entries.flatMap entry_facts
  let descriptions := entries.flatMap entry_descriptions
  if facts.isEmpty then
    .error "No structured facts available. Upload documents again to extract data."
  else
    .ok
      (if descriptions.isEmpty then "No supporting description."
       else String.intercalate "; " descriptions,
       facts)

/-- One fact line of `_format_facts_text`:
`- name: value (description; source=slug)` with the parenthesised detail
dropped when both parts are falsy. -/
def fact_line (f : FactRecord) : String :=
  let detail_parts : List String :=
    (if strTruthy f.description then [f.description.getD ""] else []) ++
    (if strTruthy f.source then ["source=" ++ f.source.getD ""] else [])
  let detail_suffix :=
    if detail_parts.isEmpty then ""
    else " (" ++ String.intercalate "; " detail_parts ++ ")"
  "- " ++ f.name ++ ": " ++ f.value ++ detail_suffix

/-- The truncated-enumeration loop of `_format_facts_text`: the loop breaks
at `limit`, so the produced lines are the lines of the first `limit`
facts. -/
def format_facts_lines (facts : List FactRecord) (limit : Nat) : List String :=
  (facts.take limit).map fact_line

/-- The truncation notice appended when more facts exist than the limit. -/
def truncation_notice (facts : List FactRecord) (limit : Nat) : String :=
  "- ... " ++ toString (facts.length - limit) ++ " additional facts truncated ..."

/-- `_format_facts_text` (the source's default `limit` is `80`). -/
def format_facts_text (facts : List FactRecord) (limit : Nat) : String :=
  let lines := format_facts_lines facts limit
  if lines.isEmpty then "No supporting facts provided."
  else
    let lines :=
      if facts.length > limit then lines ++ [truncation_notice facts limit] else lines
    String.intercalate "\n" lines

/-! ## Schema extraction (`_extract_form_schema`) -/

/-- `(widget.field_type_string or "").lower() == "text"`. -/
def is_text_widget (w : Widget) : Bool :=
  py_lower (strOrElse w.field_type_string "") == "text"

/-- The descriptor built for one accepted widget. -/
def make_field_record (fname : String) (page : Nat) (w : Widget) : FormFieldSchema :=
  { name := fname
    page := page
    rect := w.rect
    label := some (strOrElse w.field_label fname)
    placeholder := strOrNone w.field_value
    maxLength := natOptOr w.maxlen w.max_len
    required := w.field_flags.testBit 1 }

/-- The page-indexed widget stream of a document, in document order. -/
def enum_widgets (doc : Doc) : List (Nat × Widget) :=
  doc.enum.flatMap (fun pws => pws.2.map (fun w => (pws.1, w)))

/-- The widget loop of `_extract_form_schema`: non-text widgets are
skipped; a falsy name defaults to `field-{page}-{len(fields)}`; a name
already seen is skipped (`seen_names` is always exactly the set of names
of the accumulated descriptors, so it is modelled by that list). -/
def extract_fields_loop : List (Nat × Widget) → List FormFieldSchema → List FormFieldSchema
  | [], acc => acc
  | (p, w) :: rest, acc =>
    if is_text_widget w then
      let fname := strOrElse w.field_name ("field-" ++ toString p ++ "-" ++ toString acc.length)
      if fname ∈ acc.map (fun r => r.name) then
        extract_fields_loop rest acc
      else
        extract_fields_loop rest (acc ++ [make_field_record fname p w])
    else
      extract_fields_loop rest acc

/-- `_extract_form_schema`. -/
def extract_form_schema (doc : Doc) (form_slug : String) : FormSchema :=
  let fields := extract_fields_loop (enum_widgets doc) []
  { formSlug := form_slug, fields := fields, totalFields := fields.length }

/-! ## Field injection (`_apply_field_values`) -/

/-- The widget loop body of `_apply_field_values`:
`field_name = widget.field_name or ""`; the value is set (and the widget
updated) only when that name is a key of the mapping and the widget is a
text widget. -/
def apply_to_widget (fills : List (String × String)) (w : Widget) : Widget :=
  let fname := w.field_name.getD ""
  match fills.lookup fname with
  | some v => if is_text_widget w then { w with field_value := some v } else w
  | none => w

/-- `_apply_field_values`: returns the original bytes unchanged on an
empty mapping, otherwise rewrites every matching text widget. -/
def apply_field_values (doc : Doc) (fills : List (String × String)) : Doc :=
  if fills.isEmpty then doc
  else doc.map (fun page => page.map (apply_to_widget fills))

/-! ## Field fan-out (`_fill_fields_concurrently`) -/

/-- The worker body after `decide_field_value` resolved (`_worker`):
`HTTPException`s from the decision engine mark the field `error` with the
exception detail; a `fill` action with a truthy value marks it `filled`
with the stripped value; a `skip` action marks it `skipped`; anything else
(including a `fill` with a falsy value) marks it `error` with the fixed
missing-value reason.  Python `str.strip()` is modelled by `py_strip`. -/
def worker_decide (j : Job) (fname : String) (d : Except String FieldFillDecision) : Job :=
  match d with
  | .error detail =>
      set_field_status j fname ⟨some "error", none, none, some (some detail)⟩
  | .ok dec =>
      let action := py_lower dec.action
      if action == "fill" && strTruthy dec.value then
        set_field_status j fname
          ⟨some "filled", some (some (py_strip (dec.value.getD ""))),
           some dec.confidence, some dec.reason⟩
      else if action == "skip" then
        set_field_status j fname
          ⟨some "skipped", none, some dec.confidence,
           some (some (strOrElse dec.reason "Model skipped field."))⟩
      else
        set_field_status j fname
          ⟨some "error", none, none, some (some "Model response missing required value.")⟩

/-- The update marking a field `prompting` when its worker starts. -/
def prompting_update : FieldUpdate := ⟨some "prompting", none, none, none⟩

/-- `_fill_fields_concurrently`, scheduled worker by worker in field
order (each worker writes only its own field, so this is a faithful
schedule of the bounded `asyncio.gather` fan-out).  Returns the final job
and the list of job snapshots observable at the worker suspension
points. -/
def fill_fields_loop (j : Job) (fs : List FormFieldSchema)
    (oracle : String → Except String FieldFillDecision) : Job × List Job :=
  match fs with
  | [] => (j, [])
  | f :: rest =>
    let jp := set_field_status j f.name prompting_update
    let jd := worker_decide jp f.name (oracle f.name)
    let res := fill_fields_loop jd rest oracle
    (res.1, jp :: jd :: res.2)

/-- The injection mapping built after the fan-in barrier: filled fields
with a truthy value, keyed by `status.fieldName`. -/
def filled_values (j : Job) : List (String × String) :=
  (j.fields.filter (fun p => p.2.status == "filled" && strTruthy p.2.value)).map
    (fun p => (p.2.fieldName, strOrElse p.2.value ""))

/-! ## Orchestration (`start_form_fill_job`, `_run_form_fill_job`) -/

/-- The outward-facing external writes attempted by the background task,
in attempt order (`upload_bytes_to_s3` / `save_manifest` call sites). -/
inductive StoreEvent where
  | sourceUpload : StoreEvent
  | schemaUpload : StoreEvent
  | manifestSave : StoreEvent
  | filledUpload : StoreEvent
deriving DecidableEq, Repr

/-- The oracle for every external suspension point of one job run, in the
order the background task reaches them.  A component `Except.error d`
means that call raised an `HTTPException` with detail `d`. -/
structure Env where
  /-- `manifest.files` as loaded at the start of the background task. -/
  files : List ManifestFileEntry
  /-- the `form_slug` derived from the normalized URL. -/
  formSlug : String
  /-- `_download_form_pdf`: the parsed form document on success. -/
  download : Except String Doc
  /-- upload of the source PDF. -/
  uploadSource : Except String Unit
  /-- first `_persist_form_schema`. -/
  persistSchema1 : Except String Unit
  /-- `save_manifest` after schema extraction. -/
  saveManifest1 : Except String Unit
  /-- `decide_field_value` outcome per field name. -/
  decide : String → Except String FieldFillDecision
  /-- second `_persist_form_schema` after the fan-in barrier. -/
  persistSchema2 : Except String Unit
  /-- upload of the filled PDF. -/
  uploadFilled : Except String Unit
  /-- final `save_manifest` after completion. -/
  saveManifest2 : Except String Unit
  /-- `build_filled_form_url(settings.s3_bucket_url, ...)`. -/
  filledUrl : String

/-- What one run of the background task produces: the trace of observable
job snapshots (in order, starting from the freshly created job) and the
attempted external writes, plus the filled artifact when one was built. -/
structure RunResult where
  trace : List Job
  events : List StoreEvent
  filledArtifact : Option Doc
deriving Repr

/-- The `except HTTPException` handler of `_run_form_fill_job`:
`_set_job_status(job, "error", exc.detail)` appended to the trace. -/
def fail_run (tr : List Job) (evs : List StoreEvent) (art : Option Doc)
    (j : Job) (detail : String) : RunResult :=
  { trace := tr ++ [set_job_status j "error" (some detail)]
    events := evs
    filledArtifact := art }

/-- The job mutation block run after schema extraction
(lines `job["totalFields"] = ...` through `_update_job_counts(job)`;
the block contains no suspension point, so it is one snapshot).  The
job's field map is empty when this runs, so populating it entry by entry
amounts to building it from the schema fields. -/
def apply_schema_to_job (j : Job) (schema : FormSchema) : Job :=
  update_job_counts
    { j with
      totalFields := schema.totalFields
      fieldOrder := schema.fields.map (fun f => f.name)
      fields := schema.fields.map (fun f => (f.name, ⟨f.name, "pending", none, none, none⟩)) }

/-- `start_form_fill_job`, after URL validation: loads the manifest,
raises `HTTP 400` when the user has no uploads at all, otherwise registers
a fresh `queued` job and schedules the background task.  `Except.ok`
means the job was registered and is retrievable through `get`. -/
def start_form_fill_job (files : List ManifestFileEntry) : Except String Job :=
  if files.isEmpty then .error "No uploads available for this user."
  else .ok create_job

/-- `_run_form_fill_job`: the background task, with every suspension
point resolved by `env`.  The trace lists the job snapshots observable
between suspension points. -/
def run_form_fill_job (env : Env) : RunResult :=
  let j0 := create_job
  match collect_structured_facts env.files with
  | .error d => fail_run [j0] [] none j0 d
  | .ok _ctx =>
  match env.download with
  | .error d => fail_run [j0] [] none j0 d
  | .ok doc =>
  let evs := [StoreEvent.sourceUpload]
  match env.uploadSource with
  | .error d => fail_run [j0] evs none j0 d
  | .ok _ =>
  let schema := extract_form_schema doc env.formSlug
  let evs := evs ++ [StoreEvent.schemaUpload]
  match env.persistSchema1 with
  | .error d => fail_run [j0] evs none j0 d
  | .ok _ =>
  let j1 := apply_schema_to_job j0 schema
  let tr := [j0, j1]
  let evs := evs ++ [StoreEvent.manifestSave]
  match env.saveManifest1 with
  | .error d => fail_run tr evs none j1 d
  | .ok _ =>
  if schema.totalFields = 0 then
    fail_run tr evs none j1 "No text fields detected in the form."
  else
    let j2 := set_job_status j1 "filling" none
    let tr := tr ++ [j2]
    let fill := fill_fields_loop j2 schema.fields env.decide
    let j3 := fill.1
    let tr := tr ++ fill.2
    let evs := evs ++ [StoreEvent.schemaUpload]
    match env.persistSchema2 with
    | .error d => fail_run tr evs none j3 d
    | .ok _ =>
    let fills := filled_values j3
    let art := if fills.isEmpty then doc else apply_field_values doc fills
    let evs := evs ++ [StoreEvent.filledUpload]
    match env.uploadFilled with
    | .error d => fail_run tr evs (some art) j3 d
    | .ok _ =>
    let j4 := set_job_status { j3 with filledFormUrl := some env.filledUrl } "complete" none
    let tr := tr ++ [j4]
    let evs := evs ++ [StoreEvent.manifestSave]
    match env.saveManifest2 with
    | .error d => fail_run tr evs (some art) j4 d
    | .ok _ => { trace := tr, events := evs, filledArtifact := some art }

/-- The last observable snapshot of a run (the job's final state). -/
def final_job (env : Env) : Job :=
  (run_form_fill_job env).trace.getLastD create_job

/-! ## Spec-side auxiliary definitions used by the claim statements -/

/-- Position of a status label along the lifecycle
`queued → filling → (complete | error)`: terminal labels rank highest. -/
def status_rank (s : String) : Nat :=
  if s = "queued" then 0 else if s = "filling" then 1 else 2

/-- Whether a status label is terminal. -/
def is_terminal (s : String) : Bool :=
  s == "complete" || s == "error"

/-- The relation holding between any two consecutive observable snapshots
of a job: `totalFields` is still unset or unchanged, the status rank never
decreases, and `error` is absorbing. -/
def JobStep (j j' : Job) : Prop :=
  (j.totalFields = 0 ∨ j'.totalFields = j.totalFields) ∧
  status_rank j.status ≤ status_rank j'.status ∧
  (j.status = "error" → j'.status = "error")

/-- Deduplication by key keeping the first occurrence of each key, written
from the spec's words (`duplicates within a form are discarded keeping the
first occurrence`); compared against the extractor's seen-set loop. -/
def dedup_first_by {α : Type} (key : α → String) : List α → List α
  | [] => []
  | x :: xs => x :: dedup_first_by key (xs.filter (fun y => key y != key x))
termination_by l => l.length
decreasing_by
  simp only [List.length_cons]
  exact Nat.lt_succ_of_le (List.length_filter_le _ _)

/-- The field status a worker records for its own field, as a function of
the decision-engine outcome alone (spec-side summary of `_worker`). -/
def worker_outcome_status : Except String FieldFillDecision → String
  | .error _ => "error"
  | .ok dec =>
    if py_lower dec.action == "fill" && strTruthy dec.value then "filled"
    else if py_lower dec.action == "skip" then "skipped"
    else "error"

/-- The text widgets of a document with their page indices, in document
order. -/
def text_widgets (doc : Doc) : List (Nat × Widget) :=
  (enum_widgets doc).filter (fun pw => is_text_widget pw.2)

/-- The widget at position `i` of page `p`, when both exist. -/
def get_widget (doc : Doc) (p i : Nat) : Option Widget :=
  (doc[p]?).bind (fun page => page[i]?)

/-! ## Concrete inputs used by witnesses and counterexamples -/

/-- A text widget with the given (possibly absent) name. -/
def wtext (nm : Option String) : Widget :=
  { field_type_string := some "Text"
    field_name := nm
    field_value := none
    field_label := none
    rect := []
    field_flags := 0
    maxlen := none
    max_len := none }

/-- A non-text widget (a checkbox). -/
def wcheckbox : Widget :=
  { field_type_string := some "CheckBox"
    field_name := some "agree"
    field_value := none
    field_label := none
    rect := []
    field_flags := 0
    maxlen := none
    max_len := none }

/-- An upload entry whose extraction result holds one fact. -/
def entry_ada : ManifestFileEntry :=
  { slug := "doc1"
    fileName := some "doc1.pdf"
    info := .ok { document_description := "passport"
                  structured_information := [⟨"FirstName", "Ada", none⟩] } }

/-- An upload entry whose extraction result holds zero facts. -/
def entry_nofacts : ManifestFileEntry :=
  { slug := "doc1"
    fileName := some "doc1.pdf"
    info := .ok { document_description := "passport"
                  structured_information := [] } }

/-- A fully successful one-field environment. -/
def env_base : Env :=
  { files := [entry_ada]
    formSlug := "form"
    download := .ok [[wtext (some "GivenName")]]
    uploadSource := .ok ()
    persistSchema1 := .ok ()
    saveManifest1 := .ok ()
    decide := fun _ => .ok ⟨"GivenName", "fill", some " Ada ", none, none⟩
    persistSchema2 := .ok ()
    uploadFilled := .ok ()
    saveManifest2 := .ok ()
    filledUrl := "https://bucket/u/forms/form/filled.pdf" }

/-- `env_base` with the final manifest save failing. -/
def env_manifest_fail : Env :=
  { env_base with saveManifest2 := .error "Unable to update manifest." }

/-- `env_base` with a form holding three text fields whose decisions are
an engine failure, a fill and a skip respectively. -/
def env_three : Env :=
  { env_base with
    download := .ok [[wtext (some "a"), wtext (some "b"), wtext (some "c")]]
    decide := fun n =>
      if n = "a" then .error "Failed to decide form field value."
      else if n = "b" then .ok ⟨"b", "fill", some " Bob ", none, none⟩
      else .ok ⟨"c", "skip", none, none, some "not applicable"⟩ }

/-- `env_base` with a form holding no text widget at all. -/
def env_nofield : Env :=
  { env_base with download := .ok [[wcheckbox]] }

/-- A page holding a widget named `field-0-1` followed by an unnamed
widget: the name synthesized for the unnamed widget collides. -/
def doc_collide : Doc := [[wtext (some "field-0-1"), wtext none]]

/-- Two pages of named text widgets with one duplicate name. -/
def doc_dup_named : Doc := [[wtext (some "a"), wtext (some "b")], [wtext (some "a")]]

/-- A job holding exactly one pending field `f1`. -/
def job_one_field : Job :=
  { create_job with
    totalFields := 1
    fields := [("f1", ⟨"f1", "pending", none, none, none⟩)]
    fieldOrder := ["f1"] }

/-- Eighty-one identical fact records. -/
def facts_81 : List FactRecord :=
  List.replicate 81 ⟨"n", "v", none, none⟩

/-- `env_base` with one upload entry that produced zero facts. -/
def env_bg_nofacts : Env :=
  { env_base with files := [entry_nofacts] }

/-! ## Counting lemmas -/

theorem count_status_cons (p : String × FieldFillStatus) (l : List (String × FieldFillStatus))
    (s : String) :
    count_status (p :: l) s = (if p.2.status == s then 1 else 0) + count_status l s := by
  by_cases h : p.2.status == s <;> simp [count_status, List.filter_cons, h, Nat.add_comm]

theorem counts_sum_le (l : List (String × FieldFillStatus)) :
    count_status l "filled" + count_status l "skipped" + count_status l "error" ≤ l.length := by
  induction l with
  | nil => simp [count_status]
  | cons p t ih =>
    rw [count_status_cons, count_status_cons, count_status_cons]
    simp only [List.length_cons]
    have hind :
        (if p.2.status == "filled" then 1 else 0) +
          ((if p.2.status == "skipped" then 1 else 0) +
            (if p.2.status == "error" then 1 else 0)) ≤ 1 := by
      by_cases h1 : p.2.status = "filled" <;> by_cases h2 : p.2.status = "skipped" <;>
        by_cases h3 : p.2.status = "error" <;>
        first
          | exact absurd (h1.symm.trans h2) (by decide)
          | exact absurd (h1.symm.trans h3) (by decide)
          | exact absurd (h2.symm.trans h3) (by decide)
          | simp [h1, h2, h3]
    omega

/-! ## Association-list lemmas -/

theorem lookup_isSome_iff_mem_keys {β : Type} (l : List (String × β)) (n : String) :
    (l.lookup n).isSome ↔ n ∈ l.map Prod.fst := by
  induction l with
  | nil => simp
  | cons p t ih =>
    obtain ⟨a, b⟩ := p
    by_cases h : n = a
    · subst h
      simp [List.lookup_cons]
    · have hb : (n == a) = false := by simp [h]
      simp [List.lookup_cons, hb, h, ih]

theorem map_fst_update (l : List (String × FieldFillStatus)) (n : String)
    (g : FieldFillStatus → FieldFillStatus) :
    (l.map (fun p => if p.1 = n then (p.1, g p.2) else p)).map Prod.fst = l.map Prod.fst := by
  rw [List.map_map]
  refine List.map_congr_left (fun p _ => ?_)
  by_cases h : p.1 = n <;> simp [Function.comp, h]

theorem lookup_update_self (l : List (String × FieldFillStatus)) (n : String)
    (g : FieldFillStatus → FieldFillStatus) :
    (l.map (fun p => if p.1 = n then (p.1, g p.2) else p)).lookup n = (l.lookup n).map g := by
  induction l with
  | nil => simp
  | cons p t ih =>
    obtain ⟨a, b⟩ := p
    by_cases h : a = n
    · subst h
      simp [List.lookup_cons, ih]
    · have hb2 : (n == a) = false := by simp [Ne.symm h]
      simp [List.lookup_cons, h, hb2, ih]

theorem lookup_update_other (l : List (String × FieldFillStatus)) (n m : String)
    (g : FieldFillStatus → FieldFillStatus) (hm : m ≠ n) :
    (l.map (fun p => if p.1 = n then (p.1, g p.2) else p)).lookup m = l.lookup m := by
  induction l with
  | nil => simp
  | cons p t ih =>
    obtain ⟨a, b⟩ := p
    by_cases h : a = n
    · subst h
      have hb : (m == a) = false := by simp [hm]
      simp [List.lookup_cons, hb, ih]
    · by_cases hmp : m = a
      · subst hmp
        simp [List.lookup_cons, h, ih]
      · have hb2 : (m == a) = false := by simp [hmp]
        simp [List.lookup_cons, h, hb2, ih]

/-! ## Preservation lemmas for the job-record updates -/

@[simp] theorem update_job_counts_status (j : Job) : (update_job_counts j).status = j.status := rfl

@[simp] theorem update_job_counts_message (j : Job) :
    (update_job_counts j).message = j.message := rfl

@[simp] theorem update_job_counts_filledFormUrl (j : Job) :
    (update_job_counts j).filledFormUrl = j.filledFormUrl := rfl

@[simp] theorem update_job_counts_totalFields (j : Job) :
    (update_job_counts j).totalFields = j.totalFields := rfl

@[simp] theorem update_job_counts_fields (j : Job) : (update_job_counts j).fields = j.fields := rfl

@[simp] theorem update_job_counts_fieldOrder (j : Job) :
    (update_job_counts j).fieldOrder = j.fieldOrder := rfl

@[simp] theorem set_job_status_status (j : Job) (s : String) (m : Option String) :
    (set_job_status j s m).status = s := rfl

@[simp] theorem set_job_status_totalFields (j : Job) (s : String) (m : Option String) :
    (set_job_status j s m).totalFields = j.totalFields := rfl

@[simp] theorem set_job_status_fields (j : Job) (s : String) (m : Option String) :
    (set_job_status j s m).fields = j.fields := rfl

@[simp] theorem set_job_status_fieldOrder (j : Job) (s : String) (m : Option String) :
    (set_job_status j s m).fieldOrder = j.fieldOrder := rfl

@[simp] theorem set_job_status_filledFormUrl (j : Job) (s : String) (m : Option String) :
    (set_job_status j s m).filledFormUrl = j.filledFormUrl := rfl

@[simp] theorem set_job_status_filledFields (j : Job) (s : String) (m : Option String) :
    (set_job_status j s m).filledFields = j.filledFields := rfl

@[simp] theorem set_job_status_skippedFields (j : Job) (s : String) (m : Option String) :
    (set_job_status j s m).skippedFields = j.skippedFields := rfl

@[simp] theorem set_job_status_errorFields (j : Job) (s : String) (m : Option String) :
    (set_job_status j s m).errorFields = j.errorFields := rfl

@[simp] theorem set_job_status_message_some (j : Job) (s : String) (m : String) :
    (set_job_status j s (some m)).message = some m := rfl

@[simp] theorem set_field_status_status (j : Job) (n : String) (u : FieldUpdate) :
    (set_field_status j n u).status = j.status := rfl

@[simp] theorem set_field_status_message (j : Job) (n : String) (u : FieldUpdate) :
    (set_field_status j n u).message = j.message := rfl

@[simp] theorem set_field_status_filledFormUrl (j : Job) (n : String) (u : FieldUpdate) :
    (set_field_status j n u).filledFormUrl = j.filledFormUrl := rfl

@[simp] theorem set_field_status_totalFields (j : Job) (n : String) (u : FieldUpdate) :
    (set_field_status j n u).totalFields = j.totalFields := rfl

@[simp] theorem set_field_status_fieldOrder (j : Job) (n : String) (u : FieldUpdate) :
    (set_field_status j n u).fieldOrder = j.fieldOrder := rfl

theorem set_field_status_fields_of_isSome (j : Job) (n : String) (u : FieldUpdate)
    (h : (j.fields.lookup n).isSome) :
    (set_field_status j n u).fields =
      j.fields.map (fun p => if p.1 = n then (p.1, apply_field_update p.2 u) else p) := by
  simp [set_field_status, h]

theorem set_field_status_keys (j : Job) (n : String) (u : FieldUpdate)
    (h : (j.fields.lookup n).isSome) :
    (set_field_status j n u).fields.map Prod.fst = j.fields.map Prod.fst := by
  rw [set_field_status_fields_of_isSome j n u h]
  exact map_fst_update j.fields n (fun f => apply_field_update f u)

theorem set_field_status_length (j : Job) (n : String) (u : FieldUpdate)
    (h : (j.fields.lookup n).isSome) :
    (set_field_status j n u).fields.length = j.fields.length := by
  rw [set_field_status_fields_of_isSome j n u h, List.length_map]

theorem set_field_status_counts_le (j : Job) (n : String) (u : FieldUpdate) :
    (set_field_status j n u).filledFields + (set_field_status j n u).skippedFields +
      (set_field_status j n u).errorFields ≤ (set_field_status j n u).fields.length := by
  unfold set_field_status update_job_counts
  exact counts_sum_le _

theorem set_field_status_lookup_self (j : Job) (n : String) (u : FieldUpdate)
    (h : (j.fields.lookup n).isSome) :
    (set_field_status j n u).fields.lookup n =
      (j.fields.lookup n).map (fun f => apply_field_update f u) := by
  rw [set_field_status_fields_of_isSome j n u h]
  exact lookup_update_self j.fields n (fun f => apply_field_update f u)

theorem set_field_status_lookup_other (j : Job) (n m : String) (u : FieldUpdate)
    (h : (j.fields.lookup n).isSome) (hm : m ≠ n) :
    (set_field_status j n u).fields.lookup m = j.fields.lookup m := by
  rw [set_field_status_fields_of_isSome j n u h]
  exact lookup_update_other j.fields n m (fun f => apply_field_update f u) hm

theorem set_field_status_mem_key_status (j : Job) (n : String) (u : FieldUpdate)
    (s : String) (hu : u.status = some s) :
    ∀ p ∈ (set_field_status j n u).fields, p.1 = n → p.2.status = s := by
  intro p hp hpn
  unfold set_field_status at hp
  simp only [update_job_counts_fields, List.mem_map] at hp
  obtain ⟨q, _, hq⟩ := hp
  by_cases hqn : q.1 = n
  · rw [if_pos hqn] at hq
    rw [← hq]
    simp [apply_field_update, hu]
  · rw [if_neg hqn] at hq
    exact absurd (hq ▸ hpn) hqn

theorem set_field_status_fieldName_inv (j : Job) (n : String) (u : FieldUpdate)
    (hk : ∀ p ∈ j.fields, p.2.fieldName = p.1) :
    ∀ p ∈ (set_field_status j n u).fields, p.2.fieldName = p.1 := by
  intro p hp
  unfold set_field_status at hp
  simp only [update_job_counts_fields, List.mem_map] at hp
  obtain ⟨q, hq, hfq⟩ := hp
  have hq2 : q.2.fieldName = q.1 := by
    by_cases h : (j.fields.lookup n).isSome
    · rw [if_pos h] at hq
      exact hk q hq
    · rw [if_neg h] at hq
      rcases List.mem_append.mp hq with hmem | hmem
      · exact hk q hmem
      · simp only [List.mem_singleton] at hmem
        rw [hmem]
  by_cases hqn : q.1 = n
  · rw [if_pos hqn] at hfq
    rw [← hfq]
    simpa [apply_field_update] using hq2
  · rw [if_neg hqn] at hfq
    rw [← hfq]
    exact hq2

/-! ## Worker lemmas -/

theorem worker_decide_eq_set (j : Job) (n : String) (d : Except String FieldFillDecision) :
    ∃ u : FieldUpdate, worker_decide j n d = set_field_status j n u ∧
      u.status = some (worker_outcome_status d) := by
  cases d with
  | error detail => exact ⟨_, rfl, rfl⟩
  | ok dec =>
    unfold worker_decide worker_outcome_status
    by_cases h1 : (py_lower dec.action == "fill" && strTruthy dec.value) = true
    · simp only [h1, if_true]
      exact ⟨_, rfl, rfl⟩
    · by_cases h2 : (py_lower dec.action == "skip") = true <;>
        simp only [h1, h2, if_true, if_false, Bool.false_eq_true] <;>
        exact ⟨_, rfl, rfl⟩

theorem worker_decide_error (j : Job) (n : String) (detail : String) :
    worker_decide j n (.error detail) =
      set_field_status j n ⟨some "error", none, none, some (some detail)⟩ := rfl

theorem worker_decide_fill (j : Job) (n : String) (dec : FieldFillDecision)
    (h1 : (py_lower dec.action == "fill" && strTruthy dec.value) = true) :
    worker_decide j n (.ok dec) =
      set_field_status j n
        ⟨some "filled", some (some (py_strip (dec.value.getD ""))),
         some dec.confidence, some dec.reason⟩ := by
  unfold worker_decide
  dsimp only
  rw [if_pos h1]

theorem worker_decide_skip (j : Job) (n : String) (dec : FieldFillDecision)
    (h1 : ¬(py_lower dec.action == "fill" && strTruthy dec.value) = true)
    (h2 : (py_lower dec.action == "skip") = true) :
    worker_decide j n (.ok dec) =
      set_field_status j n
        ⟨some "skipped", none, some dec.confidence,
         some (some (strOrElse dec.reason "Model skipped field."))⟩ := by
  unfold worker_decide
  dsimp only
  rw [if_neg h1, if_pos h2]

theorem worker_decide_missing_value (j : Job) (n : String) (dec : FieldFillDecision)
    (h1 : ¬(py_lower dec.action == "fill" && strTruthy dec.value) = true)
    (h2 : ¬(py_lower dec.action == "skip") = true) :
    worker_decide j n (.ok dec) =
      set_field_status j n
        ⟨some "error", none, none, some (some "Model response missing required value.")⟩ := by
  unfold worker_decide
  dsimp only
  rw [if_neg h1, if_neg h2]

theorem worker_decide_status (j : Job) (n : String) (d : Except String FieldFillDecision) :
    (worker_decide j n d).status = j.status := by
  obtain ⟨u, he, _⟩ := worker_decide_eq_set j n d
  rw [he, set_field_status_status]

theorem worker_decide_message (j : Job) (n : String) (d : Except String FieldFillDecision) :
    (worker_decide j n d).message = j.message := by
  obtain ⟨u, he, _⟩ := worker_decide_eq_set j n d
  rw [he, set_field_status_message]

theorem worker_decide_filledFormUrl (j : Job) (n : String) (d : Except String FieldFillDecision) :
    (worker_decide j n d).filledFormUrl = j.filledFormUrl := by
  obtain ⟨u, he, _⟩ := worker_decide_eq_set j n d
  rw [he, set_field_status_filledFormUrl]

theorem worker_decide_totalFields (j : Job) (n : String) (d : Except String FieldFillDecision) :
    (worker_decide j n d).totalFields = j.totalFields := by
  obtain ⟨u, he, _⟩ := worker_decide_eq_set j n d
  rw [he, set_field_status_totalFields]

theorem worker_decide_fieldOrder (j : Job) (n : String) (d : Except String FieldFillDecision) :
    (worker_decide j n d).fieldOrder = j.fieldOrder := by
  obtain ⟨u, he, _⟩ := worker_decide_eq_set j n d
  rw [he, set_field_status_fieldOrder]

theorem worker_decide_keys (j : Job) (n : String) (d : Except String FieldFillDecision)
    (h : (j.fields.lookup n).isSome) :
    (worker_decide j n d).fields.map Prod.fst = j.fields.map Prod.fst := by
  obtain ⟨u, he, _⟩ := worker_decide_eq_set j n d
  rw [he, set_field_status_keys j n u h]

theorem worker_decide_counts_le (j : Job) (n : String) (d : Except String FieldFillDecision) :
    (worker_decide j n d).filledFields + (worker_decide j n d).skippedFields +
      (worker_decide j n d).errorFields ≤ (worker_decide j n d).fields.length := by
  obtain ⟨u, he, _⟩ := worker_decide_eq_set j n d
  rw [he]
  exact set_field_status_counts_le j n u

theorem worker_decide_lookup_status (j : Job) (n : String) (d : Except String FieldFillDecision)
    (h : (j.fields.lookup n).isSome) :
    ((worker_decide j n d).fields.lookup n).map (fun f => f.status) =
      some (worker_outcome_status d) := by
  obtain ⟨u, he, hu⟩ := worker_decide_eq_set j n d
  obtain ⟨f, hf⟩ := Option.isSome_iff_exists.mp h
  rw [he, set_field_status_lookup_self j n u h, hf]
  simp [apply_field_update, hu]

theorem worker_decide_lookup_other (j : Job) (n m : String) (d : Except String FieldFillDecision)
    (h : (j.fields.lookup n).isSome) (hm : m ≠ n) :
    (worker_decide j n d).fields.lookup m = j.fields.lookup m := by
  obtain ⟨u, he, _⟩ := worker_decide_eq_set j n d
  rw [he, set_field_status_lookup_other j n m u h hm]

/-! ## Fill-loop lemmas -/

theorem isSome_of_keys_eq {j x : Job} (m : String)
    (hk : x.fields.map Prod.fst = j.fields.map Prod.fst)
    (h : (j.fields.lookup m).isSome) : (x.fields.lookup m).isSome := by
  rw [lookup_isSome_iff_mem_keys, hk, ← lookup_isSome_iff_mem_keys]
  exact h

theorem fill_loop_trace_props (oracle : String → Except String FieldFillDecision) :
    ∀ (fs : List FormFieldSchema) (j : Job),
      (∀ f ∈ fs, (j.fields.lookup f.name).isSome) →
      ∀ x ∈ (fill_fields_loop j fs oracle).2,
        x.status = j.status ∧ x.totalFields = j.totalFields ∧ x.message = j.message ∧
        x.filledFormUrl = j.filledFormUrl ∧ x.fields.map Prod.fst = j.fields.map Prod.fst ∧
        x.filledFields + x.skippedFields + x.errorFields ≤ x.fields.length := by
  intro fs
  induction fs with
  | nil =>
    intro j _ x hx
    simp [fill_fields_loop] at hx
  | cons f rest ih =>
    intro j h x hx
    have hf : (j.fields.lookup f.name).isSome := h f (by simp)
    have hkp : (set_field_status j f.name prompting_update).fields.map Prod.fst
        = j.fields.map Prod.fst := set_field_status_keys _ _ _ hf
    have hfp : ((set_field_status j f.name prompting_update).fields.lookup f.name).isSome :=
      isSome_of_keys_eq _ hkp hf
    have hkd : (worker_decide (set_field_status j f.name prompting_update) f.name
          (oracle f.name)).fields.map Prod.fst
        = (set_field_status j f.name prompting_update).fields.map Prod.fst :=
      worker_decide_keys _ _ _ hfp
    have hrest : ∀ g ∈ rest,
        ((worker_decide (set_field_status j f.name prompting_update) f.name
          (oracle f.name)).fields.lookup g.name).isSome := by
      intro g hg
      exact isSome_of_keys_eq _ (hkd.trans hkp) (h g (List.mem_cons_of_mem _ hg))
    simp only [fill_fields_loop, List.mem_cons] at hx
    rcases hx with hx | hx | hx
    · subst hx
      refine ⟨set_field_status_status _ _ _, set_field_status_totalFields _ _ _,
        set_field_status_message _ _ _, set_field_status_filledFormUrl _ _ _, hkp, ?_⟩
      exact set_field_status_counts_le _ _ _
    · subst hx
      refine ⟨(worker_decide_status _ _ _).trans (set_field_status_status _ _ _),
        (worker_decide_totalFields _ _ _).trans (set_field_status_totalFields _ _ _),
        (worker_decide_message _ _ _).trans (set_field_status_message _ _ _),
        (worker_decide_filledFormUrl _ _ _).trans (set_field_status_filledFormUrl _ _ _),
        hkd.trans hkp, ?_⟩
      exact worker_decide_counts_le _ _ _
    · obtain ⟨h1, h2, h3, h4, h5, h6⟩ := ih _ hrest x hx
      refine ⟨h1.trans ((worker_decide_status _ _ _).trans (set_field_status_status _ _ _)),
        h2.trans ((worker_decide_totalFields _ _ _).trans (set_field_status_totalFields _ _ _)),
        h3.trans ((worker_decide_message _ _ _).trans (set_field_status_message _ _ _)),
        h4.trans
          ((worker_decide_filledFormUrl _ _ _).trans (set_field_status_filledFormUrl _ _ _)),
        h5.trans (hkd.trans hkp), h6⟩

theorem fill_loop_final_mem_or_eq (oracle : String → Except String FieldFillDecision) :
    ∀ (fs : List FormFieldSchema) (j : Job),
      (fill_fields_loop j fs oracle).1 = j ∨
      (fill_fields_loop j fs oracle).1 ∈ (fill_fields_loop j fs oracle).2 := by
  intro fs
  induction fs with
  | nil => intro j; left; rfl
  | cons f rest ih =>
    intro j
    rcases ih (worker_decide (set_field_status j f.name prompting_update) f.name
        (oracle f.name)) with heq | hmem
    · right
      simp only [fill_fields_loop, List.mem_cons]
      right; left
      exact heq
    · right
      simp only [fill_fields_loop, List.mem_cons]
      right; right
      exact hmem

theorem fill_loop_final_props (oracle : String → Except String FieldFillDecision)
    (fs : List FormFieldSchema) (j : Job)
    (h : ∀ f ∈ fs, (j.fields.lookup f.name).isSome) :
    (fill_fields_loop j fs oracle).1.status = j.status ∧
    (fill_fields_loop j fs oracle).1.totalFields = j.totalFields ∧
    (fill_fields_loop j fs oracle).1.message = j.message ∧
    (fill_fields_loop j fs oracle).1.filledFormUrl = j.filledFormUrl ∧
    (fill_fields_loop j fs oracle).1.fields.map Prod.fst = j.fields.map Prod.fst := by
  rcases fill_loop_final_mem_or_eq oracle fs j with heq | hmem
  · rw [heq]
    exact ⟨rfl, rfl, rfl, rfl, rfl⟩
  · obtain ⟨h1, h2, h3, h4, h5, _⟩ := fill_loop_trace_props oracle fs j h _ hmem
    exact ⟨h1, h2, h3, h4, h5⟩

theorem fill_loop_final_counts (oracle : String → Except String FieldFillDecision)
    (fs : List FormFieldSchema) (j : Job)
    (h : ∀ f ∈ fs, (j.fields.lookup f.name).isSome)
    (h0 : j.filledFields + j.skippedFields + j.errorFields ≤ j.fields.length) :
    (fill_fields_loop j fs oracle).1.filledFields +
      (fill_fields_loop j fs oracle).1.skippedFields +
      (fill_fields_loop j fs oracle).1.errorFields ≤
      (fill_fields_loop j fs oracle).1.fields.length := by
  rcases fill_loop_final_mem_or_eq oracle fs j with heq | hmem
  · rw [heq]
    exact h0
  · exact (fill_loop_trace_props oracle fs j h _ hmem).2.2.2.2.2

theorem fill_loop_lookup_other (oracle : String → Except String FieldFillDecision) :
    ∀ (fs : List FormFieldSchema) (j : Job) (n : String),
      (∀ f ∈ fs, (j.fields.lookup f.name).isSome) →
      n ∉ fs.map (fun f => f.name) →
      (fill_fields_loop j fs oracle).1.fields.lookup n = j.fields.lookup n := by
  intro fs
  induction fs with
  | nil => intro j n _ _; rfl
  | cons f rest ih =>
    intro j n h hn
    simp only [List.map_cons, List.mem_cons, not_or] at hn
    obtain ⟨hnf, hnrest⟩ := hn
    have hf : (j.fields.lookup f.name).isSome := h f (by simp)
    have hkp : (set_field_status j f.name prompting_update).fields.map Prod.fst
        = j.fields.map Prod.fst := set_field_status_keys _ _ _ hf
    have hfp : ((set_field_status j f.name prompting_update).fields.lookup f.name).isSome :=
      isSome_of_keys_eq _ hkp hf
    have hkd : (worker_decide (set_field_status j f.name prompting_update) f.name
          (oracle f.name)).fields.map Prod.fst
        = (set_field_status j f.name prompting_update).fields.map Prod.fst :=
      worker_decide_keys _ _ _ hfp
    have hrest : ∀ g ∈ rest,
        ((worker_decide (set_field_status j f.name prompting_update) f.name
          (oracle f.name)).fields.lookup g.name).isSome :=
      fun g hg => isSome_of_keys_eq _ (hkd.trans hkp) (h g (List.mem_cons_of_mem _ hg))
    show (fill_fields_loop _ rest oracle).1.fields.lookup n = _
    rw [ih _ n hrest hnrest, worker_decide_lookup_other _ _ _ _ hfp hnf,
      set_field_status_lookup_other _ _ _ _ hf hnf]

theorem fill_loop_lookup_final (oracle : String → Except String FieldFillDecision) :
    ∀ (fs : List FormFieldSchema) (j : Job),
      (fs.map (fun f => f.name)).Nodup →
      (∀ f ∈ fs, (j.fields.lookup f.name).isSome) →
      ∀ f ∈ fs, ∃ st : FieldFillStatus,
        (fill_fields_loop j fs oracle).1.fields.lookup f.name = some st ∧
        st.status = worker_outcome_status (oracle f.name) ∧
        (∀ d, oracle f.name = .error d → st.reason = some d) := by
  intro fs
  induction fs with
  | nil => intro j _ _ f hf; exact absurd hf (List.not_mem_nil f)
  | cons g rest ih =>
    intro j hnd h f hf
    have hndc : (g.name :: rest.map (fun f => f.name)).Nodup := by
      simpa only [List.map_cons] using hnd
    have hnd2 : g.name ∉ rest.map (fun f => f.name) := (List.nodup_cons.mp hndc).1
    have hndrest : (rest.map (fun f => f.name)).Nodup := (List.nodup_cons.mp hndc).2
    have hg : (j.fields.lookup g.name).isSome := h g (by simp)
    have hkp : (set_field_status j g.name prompting_update).fields.map Prod.fst
        = j.fields.map Prod.fst := set_field_status_keys _ _ _ hg
    have hgp : ((set_field_status j g.name prompting_update).fields.lookup g.name).isSome :=
      isSome_of_keys_eq _ hkp hg
    have hkd : (worker_decide (set_field_status j g.name prompting_update) g.name
          (oracle g.name)).fields.map Prod.fst
        = (set_field_status j g.name prompting_update).fields.map Prod.fst :=
      worker_decide_keys _ _ _ hgp
    have hrest : ∀ f2 ∈ rest,
        ((worker_decide (set_field_status j g.name prompting_update) g.name
          (oracle g.name)).fields.lookup f2.name).isSome :=
      fun f2 hf2 => isSome_of_keys_eq _ (hkd.trans hkp) (h f2 (List.mem_cons_of_mem _ hf2))
    rcases List.mem_cons.mp hf with hfg | hfrest
    · subst hfg
      -- the worker for `f` runs first; the remaining loop does not touch it
      have hpres : (fill_fields_loop
            (worker_decide (set_field_status j f.name prompting_update) f.name
              (oracle f.name)) rest oracle).1.fields.lookup f.name =
          (worker_decide (set_field_status j f.name prompting_update) f.name
            (oracle f.name)).fields.lookup f.name :=
        fill_loop_lookup_other oracle rest _ f.name hrest hnd2
      show ∃ st, (fill_fields_loop _ rest oracle).1.fields.lookup f.name = some st ∧ _
      rw [hpres]
      cases hor : oracle f.name with
      | error detail =>
        rw [worker_decide_error]
        obtain ⟨old, hold⟩ := Option.isSome_iff_exists.mp hgp
        rw [set_field_status_lookup_self _ _ _ hgp, hold]
        refine ⟨_, rfl, ?_, ?_⟩
        · simp [apply_field_update, worker_outcome_status]
        · intro d hd
          cases hd
          simp [apply_field_update]
      | ok dec =>
        obtain ⟨u, he, hu⟩ := worker_decide_eq_set
          (set_field_status j f.name prompting_update) f.name (.ok dec)
        rw [he]
        obtain ⟨old, hold⟩ := Option.isSome_iff_exists.mp hgp
        rw [set_field_status_lookup_self _ _ _ hgp, hold]
        refine ⟨_, rfl, ?_, ?_⟩
        · simp [apply_field_update, hu, hor]
        · intro d hd
          exact absurd hd (by simp)
    · have hfg : f.name ≠ g.name := by
        intro hc
        exact hnd2 (hc ▸ List.mem_map_of_mem (fun f => f.name) hfrest)
      obtain ⟨st, h1, h2, h3⟩ := ih _ hndrest hrest f hfrest
      exact ⟨st, h1, h2, h3⟩

/-! ## Schema-application and step lemmas -/

@[simp] theorem apply_schema_status (j : Job) (s : FormSchema) :
    (apply_schema_to_job j s).status = j.status := rfl

@[simp] theorem apply_schema_message (j : Job) (s : FormSchema) :
    (apply_schema_to_job j s).message = j.message := rfl

@[simp] theorem apply_schema_filledFormUrl (j : Job) (s : FormSchema) :
    (apply_schema_to_job j s).filledFormUrl = j.filledFormUrl := rfl

@[simp] theorem apply_schema_totalFields (j : Job) (s : FormSchema) :
    (apply_schema_to_job j s).totalFields = s.totalFields := rfl

theorem apply_schema_fields (j : Job) (s : FormSchema) :
    (apply_schema_to_job j s).fields =
      s.fields.map (fun f => (f.name, ⟨f.name, "pending", none, none, none⟩)) := rfl

theorem apply_schema_fields_length (j : Job) (s : FormSchema) :
    (apply_schema_to_job j s).fields.length = s.fields.length := by
  rw [apply_schema_fields, List.length_map]

theorem apply_schema_counts_le (j : Job) (s : FormSchema) :
    (apply_schema_to_job j s).filledFields + (apply_schema_to_job j s).skippedFields +
      (apply_schema_to_job j s).errorFields ≤ s.fields.length := by
  unfold apply_schema_to_job update_job_counts
  simpa using counts_sum_le (s.fields.map (fun f => (f.name, ⟨f.name, "pending", none, none, none⟩)))

theorem apply_schema_lookup_isSome (j : Job) (s : FormSchema) :
    ∀ f ∈ s.fields, ((apply_schema_to_job j s).fields.lookup f.name).isSome := by
  intro f hf
  rw [lookup_isSome_iff_mem_keys, apply_schema_fields, List.map_map]
  exact List.mem_map_of_mem _ hf

theorem extract_totalFields_eq (doc : Doc) (slug : String) :
    (extract_form_schema doc slug).totalFields = (extract_form_schema doc slug).fields.length :=
  rfl

theorem status_rank_le_two (s : String) : status_rank s ≤ 2 := by
  unfold status_rank
  split_ifs <;> omega

theorem job_step_refl (j : Job) : JobStep j j :=
  ⟨Or.inr rfl, le_refl _, fun h => h⟩

theorem job_step_trans {a b c : Job} (h1 : JobStep a b) (h2 : JobStep b c) : JobStep a c := by
  obtain ⟨t1, r1, e1⟩ := h1
  obtain ⟨t2, r2, e2⟩ := h2
  refine ⟨?_, le_trans r1 r2, fun he => e2 (e1 he)⟩
  rcases t1 with t1 | t1
  · exact Or.inl t1
  · rcases t2 with t2 | t2
    · exact Or.inl (t1 ▸ t2)
    · exact Or.inr (t2.trans t1)

theorem job_step_err (j : Job) (d : String) : JobStep j (set_job_status j "error" (some d)) := by
  refine ⟨Or.inr rfl, ?_, fun _ => rfl⟩
  rw [set_job_status_status]
  have h2 : status_rank "error" = 2 := by decide
  rw [h2]
  exact status_rank_le_two _

theorem chain_getD_of_trans {R : Job → Job → Prop} (hrefl : ∀ j, R j j)
    (htrans : ∀ {a b c : Job}, R a b → R b c → R a c) (l : List Job) (hc : List.Chain' R l) :
    ∀ i k, i ≤ k → k < l.length → R (l.getD i create_job) (l.getD k create_job) := by
  intro i k
  induction k with
  | zero =>
    intro hik _
    have hi : i = 0 := Nat.le_zero.mp hik
    subst hi
    exact hrefl _
  | succ k ihk =>
    intro hik hk
    rcases Nat.lt_or_ge i (k + 1) with hlt | hge
    · have hik2 : i ≤ k := Nat.lt_succ_iff.mp hlt
      have hk2 : k < l.length := Nat.lt_of_succ_lt hk
      have hstep : R (l.getD k create_job) (l.getD (k + 1) create_job) := by
        have hcg := List.chain'_iff_get.mp hc k (by omega)
        have e1 : l.getD k create_job = l.get ⟨k, hk2⟩ := by
          simp [List.getD_eq_getElem?_getD, List.getElem?_eq_getElem hk2]
        have e2 : l.getD (k + 1) create_job = l.get ⟨k + 1, hk⟩ := by
          simp [List.getD_eq_getElem?_getD, List.getElem?_eq_getElem hk]
        rw [e1, e2]
        exact hcg
      exact htrans (ihk hik2 hk2) hstep
    · have hi : i = k + 1 := le_antisymm hik hge
      subst hi
      exact hrefl _

theorem job_step_create_schema (s : FormSchema) :
    JobStep create_job (apply_schema_to_job create_job s) := by
  refine ⟨Or.inl rfl, ?_, ?_⟩
  · rw [apply_schema_status]
  · intro he
    exact absurd he (by decide)

theorem job_step_schema_filling (s : FormSchema) :
    JobStep (apply_schema_to_job create_job s)
      (set_job_status (apply_schema_to_job create_job s) "filling" none) := by
  refine ⟨Or.inr rfl, ?_, ?_⟩
  · rw [set_job_status_status, apply_schema_status]
    exact (by decide : status_rank "queued" ≤ status_rank "filling")
  · intro he
    rw [apply_schema_status] at he
    exact absurd he (by decide)

/-- Every pair of consecutive observable snapshots of a run is a
`JobStep`: `totalFields` never changes once set, the status rank never
decreases, and `error` is absorbing. -/
theorem run_trace_chain (env : Env) : List.Chain' JobStep (run_form_fill_job env).trace := by
  unfold run_form_fill_job
  cases hcf : collect_structured_facts env.files with
  | error d =>
    exact List.chain'_cons.mpr ⟨job_step_err _ _, List.chain'_singleton _⟩
  | ok ctx =>
  cases hdl : env.download with
  | error d =>
    exact List.chain'_cons.mpr ⟨job_step_err _ _, List.chain'_singleton _⟩
  | ok doc =>
  cases hus : env.uploadSource with
  | error d =>
    exact List.chain'_cons.mpr ⟨job_step_err _ _, List.chain'_singleton _⟩
  | ok u1 =>
  cases hp1 : env.persistSchema1 with
  | error d =>
    exact List.chain'_cons.mpr ⟨job_step_err _ _, List.chain'_singleton _⟩
  | ok u2 =>
  cases hm1 : env.saveManifest1 with
  | error d =>
    refine List.chain'_cons.mpr ⟨job_step_create_schema _, ?_⟩
    exact List.chain'_cons.mpr ⟨job_step_err _ _, List.chain'_singleton _⟩
  | ok u3 =>
  dsimp only
  by_cases hz : (extract_form_schema doc env.formSlug).totalFields = 0
  · rw [if_pos hz]
    refine List.chain'_cons.mpr ⟨job_step_create_schema _, ?_⟩
    exact List.chain'_cons.mpr ⟨job_step_err _ _, List.chain'_singleton _⟩
  · rw [if_neg hz]
    have hflds : ∀ f ∈ (extract_form_schema doc env.formSlug).fields,
        (((set_job_status (apply_schema_to_job create_job (extract_form_schema doc env.formSlug))
          "filling" none)).fields.lookup f.name).isSome := by
      intro f hf
      rw [set_job_status_fields]
      exact apply_schema_lookup_isSome _ _ f hf
    have hall : ∀ x ∈ (set_job_status
          (apply_schema_to_job create_job (extract_form_schema doc env.formSlug))
          "filling" none) ::
        (fill_fields_loop
          (set_job_status (apply_schema_to_job create_job (extract_form_schema doc env.formSlug))
            "filling" none)
          (extract_form_schema doc env.formSlug).fields env.decide).2,
        x.status = "filling" ∧
          x.totalFields = (extract_form_schema doc env.formSlug).totalFields := by
      intro x hx
      rcases List.mem_cons.mp hx with hx | hx
      · rw [hx]
        exact ⟨rfl, rfl⟩
      · obtain ⟨h1, h2, _, _, _, _⟩ := fill_loop_trace_props env.decide _ _ hflds x hx
        exact ⟨h1.trans rfl, h2.trans rfl⟩
    have hfillchain : List.Chain' JobStep ((set_job_status
          (apply_schema_to_job create_job (extract_form_schema doc env.formSlug))
          "filling" none) ::
        (fill_fields_loop
          (set_job_status (apply_schema_to_job create_job (extract_form_schema doc env.formSlug))
            "filling" none)
          (extract_form_schema doc env.formSlug).fields env.decide).2) := by
      apply List.Pairwise.chain'
      refine List.pairwise_of_forall_mem_list (fun a ha b hb => ?_)
      obtain ⟨ha1, ha2⟩ := hall a ha
      obtain ⟨hb1, hb2⟩ := hall b hb
      refine ⟨Or.inr (hb2.trans ha2.symm), ?_, ?_⟩
      · rw [ha1, hb1]
      · intro he
        exact absurd (ha1.symm.trans he) (by decide)
    have hfinal := fill_loop_final_props env.decide
      (extract_form_schema doc env.formSlug).fields
      (set_job_status (apply_schema_to_job create_job (extract_form_schema doc env.formSlug))
        "filling" none) hflds
    -- the fan-in job's status is `filling` and its totalFields are the schema's
    have hj3status : (fill_fields_loop
        (set_job_status (apply_schema_to_job create_job (extract_form_schema doc env.formSlug))
          "filling" none)
        (extract_form_schema doc env.formSlug).fields env.decide).1.status = "filling" :=
      hfinal.1.trans rfl
    have hj3tf : (fill_fields_loop
        (set_job_status (apply_schema_to_job create_job (extract_form_schema doc env.formSlug))
          "filling" none)
        (extract_form_schema doc env.formSlug).fields env.decide).1.totalFields
        = (extract_form_schema doc env.formSlug).totalFields :=
      hfinal.2.1.trans rfl
    have hlink : ∀ y : Job, y.totalFields = (extract_form_schema doc env.formSlug).totalFields →
        status_rank "filling" ≤ status_rank y.status →
        ∀ x ∈ ((set_job_status
            (apply_schema_to_job create_job (extract_form_schema doc env.formSlug))
            "filling" none) ::
          (fill_fields_loop
            (set_job_status
              (apply_schema_to_job create_job (extract_form_schema doc env.formSlug))
              "filling" none)
            (extract_form_schema doc env.formSlug).fields env.decide).2).getLast?,
          JobStep x y := by
      intro y hytf hyrank x hx
      obtain ⟨hne, hxeq⟩ := List.mem_getLast?_eq_getLast hx
      have hxmem : x ∈ _ := hxeq ▸ List.getLast_mem hne
      obtain ⟨hx1, hx2⟩ := hall x hxmem
      refine ⟨Or.inr (hytf.trans hx2.symm), ?_, ?_⟩
      · rw [hx1]
        exact hyrank
      · intro he
        exact absurd (hx1.symm.trans he) (by decide)
    cases hp2 : env.persistSchema2 with
    | error d =>
      simp only [fail_run, List.append_assoc, List.cons_append, List.nil_append]
      refine List.chain'_cons.mpr ⟨job_step_create_schema _, ?_⟩
      refine List.chain'_cons.mpr ⟨job_step_schema_filling _, ?_⟩
      rw [← List.cons_append]
      refine List.Chain'.append hfillchain (List.chain'_singleton _) ?_
      intro x hx y hy
      simp only [List.head?_cons, Option.mem_def, Option.some.injEq] at hy
      rw [← hy]
      refine hlink _ ?_ ?_ x hx
      · rw [set_job_status_totalFields]
        exact hj3tf
      · rw [set_job_status_status]
        exact (by decide : status_rank "filling" ≤ status_rank "error")
    | ok u4 =>
    cases huf : env.uploadFilled with
    | error d =>
      simp only [fail_run, List.append_assoc, List.cons_append, List.nil_append]
      refine List.chain'_cons.mpr ⟨job_step_create_schema _, ?_⟩
      refine List.chain'_cons.mpr ⟨job_step_schema_filling _, ?_⟩
      rw [← List.cons_append]
      refine List.Chain'.append hfillchain (List.chain'_singleton _) ?_
      intro x hx y hy
      simp only [List.head?_cons, Option.mem_def, Option.some.injEq] at hy
      rw [← hy]
      refine hlink _ ?_ ?_ x hx
      · rw [set_job_status_totalFields]
        exact hj3tf
      · rw [set_job_status_status]
        exact (by decide : status_rank "filling" ≤ status_rank "error")
    | ok u5 =>
    cases hm2 : env.saveManifest2 with
    | error d =>
      simp only [fail_run, List.append_assoc, List.cons_append, List.nil_append]
      refine List.chain'_cons.mpr ⟨job_step_create_schema _, ?_⟩
      refine List.chain'_cons.mpr ⟨job_step_schema_filling _, ?_⟩
      rw [← List.cons_append]
      refine List.Chain'.append hfillchain
        (List.chain'_cons.mpr ⟨job_step_err _ _, List.chain'_singleton _⟩) ?_
      intro x hx y hy
      simp only [List.head?_cons, Option.mem_def, Option.some.injEq] at hy
      rw [← hy]
      refine hlink _ ?_ ?_ x hx
      · rw [set_job_status_totalFields]
        exact hj3tf
      · rw [set_job_status_status]
        exact (by decide : status_rank "filling" ≤ status_rank "complete")
    | ok u6 =>
      simp only [List.append_assoc, List.cons_append, List.nil_append]
      refine List.chain'_cons.mpr ⟨job_step_create_schema _, ?_⟩
      refine List.chain'_cons.mpr ⟨job_step_schema_filling _, ?_⟩
      rw [← List.cons_append]
      refine List.Chain'.append hfillchain (List.chain'_singleton _) ?_
      intro x hx y hy
      simp only [List.head?_cons, Option.mem_def, Option.some.injEq] at hy
      rw [← hy]
      refine hlink _ ?_ ?_ x hx
      · rw [set_job_status_totalFields]
        exact hj3tf
      · rw [set_job_status_status]
        exact (by decide : status_rank "filling" ≤ status_rank "complete")

theorem set_job_status_inv (j : Job) (s : String) (m : Option String)
    (h : j.filledFields + j.skippedFields + j.errorFields ≤ j.totalFields) :
    (set_job_status j s m).filledFields + (set_job_status j s m).skippedFields +
      (set_job_status j s m).errorFields ≤ (set_job_status j s m).totalFields := by
  simpa using h

theorem create_job_inv :
    create_job.filledFields + create_job.skippedFields + create_job.errorFields ≤
      create_job.totalFields := by
  decide

theorem apply_schema_extract_inv (j : Job) (doc : Doc) (slug : String) :
    (apply_schema_to_job j (extract_form_schema doc slug)).filledFields +
      (apply_schema_to_job j (extract_form_schema doc slug)).skippedFields +
      (apply_schema_to_job j (extract_form_schema doc slug)).errorFields ≤
      (apply_schema_to_job j (extract_form_schema doc slug)).totalFields := by
  have h := apply_schema_counts_le j (extract_form_schema doc slug)
  rw [apply_schema_totalFields]
  exact le_of_le_of_eq h (extract_totalFields_eq doc slug).symm

/-- Every observable snapshot of a run keeps the aggregate counters
bounded by `totalFields`. -/
theorem run_trace_inv (env : Env) :
    ∀ x ∈ (run_form_fill_job env).trace,
      x.filledFields + x.skippedFields + x.errorFields ≤ x.totalFields := by
  unfold run_form_fill_job
  cases hcf : collect_structured_facts env.files with
  | error d =>
    intro x hx
    have hx2 : x = create_job ∨ x = set_job_status create_job "error" (some d) := by
      simpa [fail_run] using hx
    rcases hx2 with rfl | rfl
    · exact create_job_inv
    · exact set_job_status_inv _ _ _ create_job_inv
  | ok ctx =>
  cases hdl : env.download with
  | error d =>
    intro x hx
    have hx2 : x = create_job ∨ x = set_job_status create_job "error" (some d) := by
      simpa [fail_run] using hx
    rcases hx2 with rfl | rfl
    · exact create_job_inv
    · exact set_job_status_inv _ _ _ create_job_inv
  | ok doc =>
  cases hus : env.uploadSource with
  | error d =>
    intro x hx
    have hx2 : x = create_job ∨ x = set_job_status create_job "error" (some d) := by
      simpa [fail_run] using hx
    rcases hx2 with rfl | rfl
    · exact create_job_inv
    · exact set_job_status_inv _ _ _ create_job_inv
  | ok u1 =>
  cases hp1 : env.persistSchema1 with
  | error d =>
    intro x hx
    have hx2 : x = create_job ∨ x = set_job_status create_job "error" (some d) := by
      simpa [fail_run] using hx
    rcases hx2 with rfl | rfl
    · exact create_job_inv
    · exact set_job_status_inv _ _ _ create_job_inv
  | ok u2 =>
  cases hm1 : env.saveManifest1 with
  | error d =>
    intro x hx
    have hx2 : x = create_job ∨
        x = apply_schema_to_job create_job (extract_form_schema doc env.formSlug) ∨
        x = set_job_status (apply_schema_to_job create_job (extract_form_schema doc env.formSlug))
          "error" (some d) := by
      simpa [fail_run] using hx
    rcases hx2 with rfl | rfl | rfl
    · exact create_job_inv
    · exact apply_schema_extract_inv _ _ _
    · exact set_job_status_inv _ _ _ (apply_schema_extract_inv _ _ _)
  | ok u3 =>
  dsimp only
  by_cases hz : (extract_form_schema doc env.formSlug).totalFields = 0
  · rw [if_pos hz]
    intro x hx
    have hx2 : x = create_job ∨
        x = apply_schema_to_job create_job (extract_form_schema doc env.formSlug) ∨
        x = set_job_status (apply_schema_to_job create_job (extract_form_schema doc env.formSlug))
          "error" (some "No text fields detected in the form.") := by
      simpa [fail_run] using hx
    rcases hx2 with rfl | rfl | rfl
    · exact create_job_inv
    · exact apply_schema_extract_inv _ _ _
    · exact set_job_status_inv _ _ _ (apply_schema_extract_inv _ _ _)
  · rw [if_neg hz]
    have hflds : ∀ f ∈ (extract_form_schema doc env.formSlug).fields,
        (((set_job_status (apply_schema_to_job create_job (extract_form_schema doc env.formSlug))
          "filling" none)).fields.lookup f.name).isSome := by
      intro f hf
      rw [set_job_status_fields]
      exact apply_schema_lookup_isSome _ _ f hf
    have hlen2 : (set_job_status
          (apply_schema_to_job create_job (extract_form_schema doc env.formSlug))
          "filling" none).fields.length
        = (extract_form_schema doc env.formSlug).totalFields := by
      rw [set_job_status_fields, apply_schema_fields_length,
        ← extract_totalFields_eq doc env.formSlug]
    have hj2inv : (set_job_status
          (apply_schema_to_job create_job (extract_form_schema doc env.formSlug))
          "filling" none).filledFields +
        (set_job_status (apply_schema_to_job create_job (extract_form_schema doc env.formSlug))
          "filling" none).skippedFields +
        (set_job_status (apply_schema_to_job create_job (extract_form_schema doc env.formSlug))
          "filling" none).errorFields ≤
        (set_job_status (apply_schema_to_job create_job (extract_form_schema doc env.formSlug))
          "filling" none).fields.length := by
      rw [set_job_status_fields]
      simp only [set_job_status_filledFields, set_job_status_skippedFields,
        set_job_status_errorFields]
      have h := apply_schema_counts_le create_job (extract_form_schema doc env.formSlug)
      rw [apply_schema_fields_length]
      exact h
    have hmemfill : ∀ x ∈ (fill_fields_loop
          (set_job_status (apply_schema_to_job create_job (extract_form_schema doc env.formSlug))
            "filling" none)
          (extract_form_schema doc env.formSlug).fields env.decide).2,
        x.filledFields + x.skippedFields + x.errorFields ≤ x.totalFields := by
      intro x hx
      obtain ⟨_, h2, _, _, h5, h6⟩ := fill_loop_trace_props env.decide _ _ hflds x hx
      have hxlen : x.fields.length = (set_job_status
          (apply_schema_to_job create_job (extract_form_schema doc env.formSlug))
          "filling" none).fields.length := by
        have := congrArg List.length h5
        simpa using this
      rw [hxlen, hlen2] at h6
      rw [h2, set_job_status_totalFields, apply_schema_totalFields]
      exact h6
    have hj3inv : (fill_fields_loop
          (set_job_status (apply_schema_to_job create_job (extract_form_schema doc env.formSlug))
            "filling" none)
          (extract_form_schema doc env.formSlug).fields env.decide).1.filledFields +
        (fill_fields_loop
          (set_job_status (apply_schema_to_job create_job (extract_form_schema doc env.formSlug))
            "filling" none)
          (extract_form_schema doc env.formSlug).fields env.decide).1.skippedFields +
        (fill_fields_loop
          (set_job_status (apply_schema_to_job create_job (extract_form_schema doc env.formSlug))
            "filling" none)
          (extract_form_schema doc env.formSlug).fields env.decide).1.errorFields ≤
        (fill_fields_loop
          (set_job_status (apply_schema_to_job create_job (extract_form_schema doc env.formSlug))
            "filling" none)
          (extract_form_schema doc env.formSlug).fields env.decide).1.totalFields := by
      have hcounts := fill_loop_final_counts env.decide _ _ hflds hj2inv
      obtain ⟨_, h2, _, _, h5⟩ := fill_loop_final_props env.decide _ _ hflds
      have hlen : (fill_fields_loop
          (set_job_status (apply_schema_to_job create_job (extract_form_schema doc env.formSlug))
            "filling" none)
          (extract_form_schema doc env.formSlug).fields env.decide).1.fields.length =
          (set_job_status (apply_schema_to_job create_job (extract_form_schema doc env.formSlug))
            "filling" none).fields.length := by
        have := congrArg List.length h5
        simpa using this
      rw [hlen, hlen2] at hcounts
      rw [h2, set_job_status_totalFields, apply_schema_totalFields]
      exact hcounts
    cases hp2 : env.persistSchema2 with
    | error d =>
      intro x hx
      have hx2 : x = create_job ∨
          x = apply_schema_to_job create_job (extract_form_schema doc env.formSlug) ∨
          x = set_job_status
            (apply_schema_to_job create_job (extract_form_schema doc env.formSlug))
            "filling" none ∨
          x ∈ (fill_fields_loop
            (set_job_status (apply_schema_to_job create_job (extract_form_schema doc env.formSlug))
              "filling" none)
            (extract_form_schema doc env.formSlug).fields env.decide).2 ∨
          x = set_job_status (fill_fields_loop
            (set_job_status (apply_schema_to_job create_job (extract_form_schema doc env.formSlug))
              "filling" none)
            (extract_form_schema doc env.formSlug).fields env.decide).1 "error" (some d) := by
        simpa [fail_run, List.append_assoc, List.mem_append, List.mem_cons, or_assoc] using hx
      rcases hx2 with rfl | rfl | rfl | hx2 | rfl
      · exact create_job_inv
      · exact apply_schema_extract_inv _ _ _
      · exact set_job_status_inv _ _ _ (apply_schema_extract_inv _ _ _)
      · exact hmemfill x hx2
      · exact set_job_status_inv _ _ _ hj3inv
    | ok u4 =>
    cases huf : env.uploadFilled with
    | error d =>
      intro x hx
      have hx2 : x = create_job ∨
          x = apply_schema_to_job create_job (extract_form_schema doc env.formSlug) ∨
          x = set_job_status
            (apply_schema_to_job create_job (extract_form_schema doc env.formSlug))
            "filling" none ∨
          x ∈ (fill_fields_loop
            (set_job_status (apply_schema_to_job create_job (extract_form_schema doc env.formSlug))
              "filling" none)
            (extract_form_schema doc env.formSlug).fields env.decide).2 ∨
          x = set_job_status (fill_fields_loop
            (set_job_status (apply_schema_to_job create_job (extract_form_schema doc env.formSlug))
              "filling" none)
            (extract_form_schema doc env.formSlug).fields env.decide).1 "error" (some d) := by
        simpa [fail_run, List.append_assoc, List.mem_append, List.mem_cons, or_assoc] using hx
      rcases hx2 with rfl | rfl | rfl | hx2 | rfl
      · exact create_job_inv
      · exact apply_schema_extract_inv _ _ _
      · exact set_job_status_inv _ _ _ (apply_schema_extract_inv _ _ _)
      · exact hmemfill x hx2
      · exact set_job_status_inv _ _ _ hj3inv
    | ok u5 =>
    have hj4inv : ∀ url : String, (set_job_status
          { (fill_fields_loop
              (set_job_status
                (apply_schema_to_job create_job (extract_form_schema doc env.formSlug))
                "filling" none)
              (extract_form_schema doc env.formSlug).fields env.decide).1
            with filledFormUrl := some url } "complete" none).filledFields +
        (set_job_status
          { (fill_fields_loop
              (set_job_status
                (apply_schema_to_job create_job (extract_form_schema doc env.formSlug))
                "filling" none)
              (extract_form_schema doc env.formSlug).fields env.decide).1
            with filledFormUrl := some url } "complete" none).skippedFields +
        (set_job_status
          { (fill_fields_loop
              (set_job_status
                (apply_schema_to_job create_job (extract_form_schema doc env.formSlug))
                "filling" none)
              (extract_form_schema doc env.formSlug).fields env.decide).1
            with filledFormUrl := some url } "complete" none).errorFields ≤
        (set_job_status
          { (fill_fields_loop
              (set_job_status
                (apply_schema_to_job create_job (extract_form_schema doc env.formSlug))
                "filling" none)
              (extract_form_schema doc env.formSlug).fields env.decide).1
            with filledFormUrl := some url } "complete" none).totalFields := by
      intro url
      simpa using hj3inv
    cases hm2 : env.saveManifest2 with
    | error d =>
      intro x hx
      have hx2 : x = create_job ∨
          x = apply_schema_to_job create_job (extract_form_schema doc env.formSlug) ∨
          x = set_job_status
            (apply_schema_to_job create_job (extract_form_schema doc env.formSlug))
            "filling" none ∨
          x ∈ (fill_fields_loop
            (set_job_status (apply_schema_to_job create_job (extract_form_schema doc env.formSlug))
              "filling" none)
            (extract_form_schema doc env.formSlug).fields env.decide).2 ∨
          x = set_job_status
            { (fill_fields_loop
                (set_job_status
                  (apply_schema_to_job create_job (extract_form_schema doc env.formSlug))
                  "filling" none)
                (extract_form_schema doc env.formSlug).fields env.decide).1
              with filledFormUrl := some env.filledUrl } "complete" none ∨
          x = set_job_status (set_job_status
            { (fill_fields_loop
                (set_job_status
                  (apply_schema_to_job create_job (extract_form_schema doc env.formSlug))
                  "filling" none)
                (extract_form_schema doc env.formSlug).fields env.decide).1
              with filledFormUrl := some env.filledUrl } "complete" none) "error" (some d) := by
        simpa [fail_run, List.append_assoc, List.mem_append, List.mem_cons, or_assoc] using hx
      rcases hx2 with rfl | rfl | rfl | hx2 | rfl | rfl
      · exact create_job_inv
      · exact apply_schema_extract_inv _ _ _
      · exact set_job_status_inv _ _ _ (apply_schema_extract_inv _ _ _)
      · exact hmemfill x hx2
      · exact hj4inv env.filledUrl
      · exact set_job_status_inv _ _ _ (hj4inv env.filledUrl)
    | ok u6 =>
      intro x hx
      have hx2 : x = create_job ∨
          x = apply_schema_to_job create_job (extract_form_schema doc env.formSlug) ∨
          x = set_job_status
            (apply_schema_to_job create_job (extract_form_schema doc env.formSlug))
            "filling" none ∨
          x ∈ (fill_fields_loop
            (set_job_status (apply_schema_to_job create_job (extract_form_schema doc env.formSlug))
              "filling" none)
            (extract_form_schema doc env.formSlug).fields env.decide).2 ∨
          x = set_job_status
            { (fill_fields_loop
                (set_job_status
                  (apply_schema_to_job create_job (extract_form_schema doc env.formSlug))
                  "filling" none)
                (extract_form_schema doc env.formSlug).fields env.decide).1
              with filledFormUrl := some env.filledUrl } "complete" none := by
        simpa [List.append_assoc, List.mem_append, List.mem_cons, or_assoc] using hx
      rcases hx2 with rfl | rfl | rfl | hx2 | rfl
      · exact create_job_inv
      · exact apply_schema_extract_inv _ _ _
      · exact set_job_status_inv _ _ _ (apply_schema_extract_inv _ _ _)
      · exact hmemfill x hx2
      · exact hj4inv env.filledUrl

/-! ## Claim C9: bounded fact enumeration -/

/-- C9: for every list of fact records, the formatted facts text enumerates
at most 80 facts, each as a `- name: value (description; source=slug)` line
with the parenthesised detail omitted when neither part is present, and a
truncation notice is appended iff more than 80 facts exist. -/
theorem C9_format_facts_text (facts : List FactRecord) :
    format_facts_text [] 80 = "No supporting facts provided." ∧
    (format_facts_lines facts 80).length = min facts.length 80 ∧
    (∀ i, i < 80 → (format_facts_lines facts 80)[i]? = (facts[i]?).map fact_line) ∧
    (facts ≠ [] →
      format_facts_text facts 80 =
        String.intercalate "\n"
          (format_facts_lines facts 80 ++
            if facts.length > 80 then [truncation_notice facts 80] else [])) ∧
    (∀ f : FactRecord, strTruthy f.description = false → strTruthy f.source = false →
      fact_line f = "- " ++ f.name ++ ": " ++ f.value) ∧
    (∀ f : FactRecord, ∀ d s : String, f.description = some d → d ≠ "" →
      f.source = some s → s ≠ "" →
      fact_line f = "- " ++ f.name ++ ": " ++ f.value ++ " (" ++ d ++ "; source=" ++ s ++ ")") := by
  refine ⟨rfl, ?_, ?_, ?_, ?_, ?_⟩
  · simp [format_facts_lines, Nat.min_comm]
  · intro i hi
    simp [format_facts_lines, List.getElem?_take_of_lt hi]
  · intro hne
    unfold format_facts_text
    have hlines : (format_facts_lines facts 80).isEmpty = false := by
      unfold format_facts_lines
      cases facts with
      | nil => exact absurd rfl hne
      | cons a t => simp [List.take_cons]
    dsimp only
    rw [hlines]
    simp only [Bool.false_eq_true, if_false]
    by_cases hlen : facts.length > 80
    · simp only [hlen, if_true]
    · simp only [hlen, if_false, List.append_nil]
  · intro f hd hs
    unfold fact_line
    simp only [hd, hs, Bool.false_eq_true, if_false, List.nil_append, List.isEmpty_nil, if_true]
    exact String.append_empty _
  · intro f d s hd hdne hs hsne
    unfold fact_line
    have hd3 : strTruthy (some d) = true := by simp [strTruthy, hdne]
    have hs3 : strTruthy (some s) = true := by simp [strTruthy, hsne]
    simp only [hd, hs, hd3, hs3, if_true, Option.getD_some, List.singleton_append,
      List.isEmpty_cons, Bool.false_eq_true, if_false]
    have hint : String.intercalate "; " [d, "source=" ++ s] = d ++ "; " ++ ("source=" ++ s) := rfl
    rw [hint]
    simp only [String.append_assoc]
    rw [show ("; source=" : String) = "; " ++ "source=" by decide]
    simp only [String.append_assoc]

/-- C9 witness: the hypotheses of `C9_format_facts_text` discharged on a
list of 81 facts and on a fully detailed fact. -/
theorem C9_format_facts_text_witness :
    ((0 : Nat) < 80 ∧ (format_facts_lines facts_81 80)[0]? = (facts_81[0]?).map fact_line) ∧
    (facts_81 ≠ [] ∧
      format_facts_text facts_81 80 =
        String.intercalate "\n"
          (format_facts_lines facts_81 80 ++
            if facts_81.length > 80 then [truncation_notice facts_81 80] else [])) ∧
    fact_line ⟨"n", "v", some "d", some "s"⟩ = "- n: v (d; source=s)" := by
  refine ⟨⟨by decide, (C9_format_facts_text facts_81).2.2.1 0 (by decide)⟩,
    ⟨by decide, (C9_format_facts_text facts_81).2.2.2.1 (by decide)⟩, ?_⟩
  exact (C9_format_facts_text []).2.2.2.2.2 ⟨"n", "v", some "d", some "s"⟩ "d" "s"
    rfl (by decide) rfl (by decide)

/-! ## Claim C5: injection frame effect -/

/-- C5: injection on an empty mapping returns the original document
unchanged; otherwise the document keeps its shape and each widget position
holds exactly the source widget, except that a text widget whose
(possibly empty) name is a key of the mapping carries the mapped value. -/
theorem C5_apply_field_values (doc : Doc) (fills : List (String × String)) :
    apply_field_values doc [] = doc ∧
    (apply_field_values doc fills).length = doc.length ∧
    (∀ p i w, get_widget doc p i = some w →
      get_widget (apply_field_values doc fills) p i = some
        (match fills.lookup (w.field_name.getD "") with
         | some v => if is_text_widget w then { w with field_value := some v } else w
         | none => w)) := by
  refine ⟨rfl, ?_, ?_⟩
  · by_cases h : fills.isEmpty <;> simp [apply_field_values, h]
  · intro p i w hw
    by_cases h : fills.isEmpty
    · have hf : fills = [] := List.isEmpty_iff.mp h
      subst hf
      simpa [apply_field_values] using hw
    · unfold apply_field_values
      rw [if_neg (by simp [h])]
      unfold get_widget at hw ⊢
      cases hp : doc[p]? with
      | none => rw [hp] at hw; exact absurd hw (by simp)
      | some page =>
        rw [hp] at hw
        have hw2 : page[i]? = some w := hw
        have hpage : (doc.map (fun pg => pg.map (apply_to_widget fills)))[p]? =
            some (page.map (apply_to_widget fills)) := by
          rw [List.getElem?_map, hp]
          rfl
        rw [hpage]
        show (page.map (apply_to_widget fills))[i]? = _
        rw [List.getElem?_map, hw2]
        rfl

/-- C5 witness: a two-widget page where one text widget is mapped and a
checkbox widget with a mapped name is left untouched. -/
theorem C5_apply_field_values_witness :
    get_widget [[wtext (some "a"), wcheckbox]] 0 0 = some (wtext (some "a")) ∧
    get_widget (apply_field_values [[wtext (some "a"), wcheckbox]] [("a", "v"), ("agree", "x")])
        0 0 = some { wtext (some "a") with field_value := some "v" } ∧
    get_widget (apply_field_values [[wtext (some "a"), wcheckbox]] [("a", "v"), ("agree", "x")])
        0 1 = some wcheckbox := by
  refine ⟨rfl, ?_, ?_⟩
  · have h := (C5_apply_field_values [[wtext (some "a"), wcheckbox]]
      [("a", "v"), ("agree", "x")]).2.2 0 0 (wtext (some "a")) rfl
    rw [h]
    decide
  · have h := (C5_apply_field_values [[wtext (some "a"), wcheckbox]]
      [("a", "v"), ("agree", "x")]).2.2 0 1 wcheckbox rfl
    rw [h]
    decide

/-! ## Claim C10: decision-value handling -/

/-- C10: a decision parsed with action `fill` (case-insensitively) but an
absent or empty value marks the field `error` with the fixed
missing-value reason and records no value for injection; only a `fill`
decision with a non-empty value yields status `filled`, storing the value
stripped of surrounding whitespace. -/
theorem C10_fill_value_handling (j : Job) (fname : String) (dec : FieldFillDecision)
    (hsome : (j.fields.lookup fname).isSome)
    (hkeys : ∀ p ∈ j.fields, p.2.fieldName = p.1) :
    (py_lower dec.action = "fill" → dec.value = none ∨ dec.value = some "" →
      ∃ st, (worker_decide j fname (.ok dec)).fields.lookup fname = some st ∧
        st.status = "error" ∧ st.reason = some "Model response missing required value." ∧
        fname ∉ (filled_values (worker_decide j fname (.ok dec))).map Prod.fst) ∧
    (∀ v, py_lower dec.action = "fill" → dec.value = some v → v ≠ "" →
      ∃ st, (worker_decide j fname (.ok dec)).fields.lookup fname = some st ∧
        st.status = "filled" ∧ st.value = some (py_strip v)) ∧
    (∀ st, (worker_decide j fname (.ok dec)).fields.lookup fname = some st →
      st.status = "filled" → py_lower dec.action = "fill" ∧ ∃ v, dec.value = some v ∧ v ≠ "") := by
  obtain ⟨old, hold⟩ := Option.isSome_iff_exists.mp hsome
  refine ⟨?_, ?_, ?_⟩
  · intro hact hval
    have htr : strTruthy dec.value = false := by
      rcases hval with hv | hv <;> rw [hv] <;> rfl
    have h1 : ¬(py_lower dec.action == "fill" && strTruthy dec.value) = true := by
      simp [htr]
    have h2 : ¬(py_lower dec.action == "skip") = true := by
      simp [hact]
    rw [worker_decide_missing_value j fname dec h1 h2]
    refine ⟨_, by rw [set_field_status_lookup_self _ _ _ hsome, hold]; rfl, rfl, rfl, ?_⟩
    intro hmem
    simp only [filled_values, List.map_map, List.mem_map, Function.comp] at hmem
    obtain ⟨q, hq, hqn⟩ := hmem
    have hqf := List.mem_of_mem_filter hq
    have hcond := List.of_mem_filter hq
    have hkeys2 := set_field_status_fieldName_inv j fname
      ⟨some "error", none, none, some (some "Model response missing required value.")⟩ hkeys
    have hq1 : q.1 = fname := by rw [← hkeys2 q hqf]; exact hqn
    have hstat := set_field_status_mem_key_status j fname
      ⟨some "error", none, none, some (some "Model response missing required value.")⟩
      "error" rfl q hqf hq1
    simp only [Bool.and_eq_true, beq_iff_eq] at hcond
    rw [hstat] at hcond
    exact absurd hcond.1 (by decide)
  · intro v hact hv hvne
    have h1 : (py_lower dec.action == "fill" && strTruthy dec.value) = true := by
      simp [hact, hv, strTruthy, hvne]
    rw [worker_decide_fill j fname dec h1]
    refine ⟨_, by rw [set_field_status_lookup_self _ _ _ hsome, hold]; rfl, rfl, ?_⟩
    simp [apply_field_update, hv]
  · intro st hst hfill
    have hout0 := worker_decide_lookup_status j fname (.ok dec) hsome
    rw [hst] at hout0
    have hout : st.status = worker_outcome_status (.ok dec) := Option.some.inj hout0
    rw [hfill] at hout
    unfold worker_outcome_status at hout
    dsimp only at hout
    by_cases h1 : (py_lower dec.action == "fill" && strTruthy dec.value) = true
    · simp only [Bool.and_eq_true, beq_iff_eq] at h1
      obtain ⟨ha, hv⟩ := h1
      refine ⟨ha, ?_⟩
      cases hval : dec.value with
      | none => rw [hval] at hv; exact absurd hv (by simp [strTruthy])
      | some v =>
        refine ⟨v, rfl, ?_⟩
        rw [hval] at hv
        simpa [strTruthy] using hv
    · rw [if_neg h1] at hout
      by_cases h2 : (py_lower dec.action == "skip") = true
      · rw [if_pos h2] at hout
        exact absurd hout (by decide)
      · rw [if_neg h2] at hout
        exact absurd hout (by decide)

/-- C10 witness: a pending one-field job where a `fill` decision with no
value yields the fixed error, and an upper-case `Fill` with a padded value
yields `filled` with the trimmed value. -/
theorem C10_fill_value_handling_witness :
    (∃ st, (worker_decide job_one_field "f1"
        (.ok ⟨"f1", "fill", none, none, none⟩)).fields.lookup "f1" = some st ∧
      st.status = "error" ∧ st.reason = some "Model response missing required value." ∧
      "f1" ∉ (filled_values (worker_decide job_one_field "f1"
        (.ok ⟨"f1", "fill", none, none, none⟩))).map Prod.fst) ∧
    (∃ st, (worker_decide job_one_field "f1"
        (.ok ⟨"f1", "Fill", some " Ada ", none, none⟩)).fields.lookup "f1" = some st ∧
      st.status = "filled" ∧ st.value = some (py_strip " Ada ")) := by
  constructor
  · exact (C10_fill_value_handling job_one_field "f1" ⟨"f1", "fill", none, none, none⟩
      (by decide) (by decide)).1 rfl (Or.inl rfl)
  · exact (C10_fill_value_handling job_one_field "f1" ⟨"f1", "Fill", some " Ada ", none, none⟩
      (by decide) (by decide)).2.1 " Ada " (by decide) rfl (by decide)

/-! ## Claim C1: counter invariant and totalFields stability -/

/-- C1: at every observable snapshot of every job run,
`filledFields + skippedFields + errorFields ≤ totalFields`, and between
any two snapshots `totalFields` is either still unset (`0`, its creation
value) or unchanged. -/
theorem C1_counts_bounded_totalFields_stable (env : Env) :
    (∀ x ∈ (run_form_fill_job env).trace,
      x.filledFields + x.skippedFields + x.errorFields ≤ x.totalFields) ∧
    (∀ i k, i ≤ k → k < (run_form_fill_job env).trace.length →
      ((run_form_fill_job env).trace.getD i create_job).totalFields = 0 ∨
      ((run_form_fill_job env).trace.getD k create_job).totalFields =
        ((run_form_fill_job env).trace.getD i create_job).totalFields) := by
  refine ⟨run_trace_inv env, ?_⟩
  intro i k hik hk
  exact (chain_getD_of_trans job_step_refl (fun ha hb => job_step_trans ha hb)
    _ (run_trace_chain env) i k hik hk).1

/-- C1 witness: the stability part applied to the successful one-field
run, between the snapshot before the schema is applied and the final
one. -/
theorem C1_counts_bounded_totalFields_stable_witness :
    (0 ≤ 5 ∧ 5 < (run_form_fill_job env_base).trace.length) ∧
    (((run_form_fill_job env_base).trace.getD 0 create_job).totalFields = 0 ∨
      ((run_form_fill_job env_base).trace.getD 5 create_job).totalFields =
        ((run_form_fill_job env_base).trace.getD 0 create_job).totalFields) :=
  ⟨⟨by decide, by decide⟩,
    (C1_counts_bounded_totalFields_stable env_base).2 0 5 (by decide) (by decide)⟩

/-! ## Claim C2: status monotonicity (corrected) -/

/-- C2 counterexample: when the final manifest save fails, the job is
observed `complete` at one snapshot and `error` at the next, so it does
not reach a terminal status exactly once (the terminal label changes a
second time). -/
theorem C2_status_monotonic_counterexample :
    ((run_form_fill_job env_manifest_fail).trace.getD 5 create_job).status = "complete" ∧
    ((run_form_fill_job env_manifest_fail).trace.getD 6 create_job).status = "error" ∧
    6 < (run_form_fill_job env_manifest_fail).trace.length := by
  refine ⟨?_, ?_, by decide⟩ <;> decide

theorem status_rank_of_terminal (s : String) (h : is_terminal s = true) : status_rank s = 2 := by
  unfold is_terminal at h
  simp only [Bool.or_eq_true, beq_iff_eq] at h
  rcases h with rfl | rfl <;> decide

/-- C2 amended: across any two observable snapshots the status only moves
forward along `queued → filling → (complete | error)`: the rank never
decreases, `error` is absorbing, and after a terminal status the job never
returns to `queued` or `filling` — but a `complete` job may still be
overwritten with `error` when the final manifest save fails, so the
terminal label is not reached exactly once. -/
theorem C2_status_monotonic_amended (env : Env) :
    ∀ i k, i ≤ k → k < (run_form_fill_job env).trace.length →
      status_rank ((run_form_fill_job env).trace.getD i create_job).status ≤
        status_rank ((run_form_fill_job env).trace.getD k create_job).status ∧
      (((run_form_fill_job env).trace.getD i create_job).status = "error" →
        ((run_form_fill_job env).trace.getD k create_job).status = "error") ∧
      (is_terminal ((run_form_fill_job env).trace.getD i create_job).status = true →
        ((run_form_fill_job env).trace.getD k create_job).status ≠ "queued" ∧
        ((run_form_fill_job env).trace.getD k create_job).status ≠ "filling") := by
  intro i k hik hk
  have h := chain_getD_of_trans job_step_refl (fun ha hb => job_step_trans ha hb)
    _ (run_trace_chain env) i k hik hk
  refine ⟨h.2.1, h.2.2, ?_⟩
  intro ht
  have hr2 : status_rank ((run_form_fill_job env).trace.getD i create_job).status = 2 :=
    status_rank_of_terminal _ ht
  have hge : 2 ≤ status_rank ((run_form_fill_job env).trace.getD k create_job).status := by
    rw [← hr2]
    exact h.2.1
  constructor
  · intro hc
    rw [hc] at hge
    exact absurd hge (by decide)
  · intro hc
    rw [hc] at hge
    exact absurd hge (by decide)

/-- C2 amended witness: the rank inequality and error-absorption applied
across the `complete → error` overwrite of the failing-save run. -/
theorem C2_status_monotonic_amended_witness :
    (5 ≤ 6 ∧ 6 < (run_form_fill_job env_manifest_fail).trace.length) ∧
    status_rank ((run_form_fill_job env_manifest_fail).trace.getD 5 create_job).status ≤
      status_rank ((run_form_fill_job env_manifest_fail).trace.getD 6 create_job).status :=
  ⟨⟨by decide, by decide⟩,
    (C2_status_monotonic_amended env_manifest_fail 5 6 (by decide) (by decide)).1⟩

/-! ## Claim C3: synchronous precondition (corrected) -/

/-- C3 counterexample: a manifest with one upload entry but zero
extractable facts makes fact collection fail, yet `start` still succeeds
and registers a job — the failure is not synchronous. -/
theorem C3_no_facts_counterexample :
    collect_structured_facts [entry_nofacts] =
      .error "No structured facts available. Upload documents again to extract data." ∧
    start_form_fill_job [entry_nofacts] = .ok create_job :=
  ⟨rfl, rfl⟩

/-- C3 amended: `start` fails synchronously (registering no job) exactly
when the user's manifest holds no upload entries at all; when entries
exist but zero facts are collectable, the job is registered anyway and the
background task transitions it to `error` with the no-facts message. -/
theorem C3_start_precondition_amended (env : Env) :
    (env.files = [] →
      start_form_fill_job env.files = .error "No uploads available for this user.") ∧
    (env.files ≠ [] → start_form_fill_job env.files = .ok create_job) ∧
    (∀ d, collect_structured_facts env.files = .error d →
      (final_job env).status = "error" ∧ (final_job env).message = some d) := by
  refine ⟨?_, ?_, ?_⟩
  · intro h
    unfold start_form_fill_job
    rw [if_pos (List.isEmpty_iff.mpr h)]
  · intro h
    unfold start_form_fill_job
    rw [if_neg (fun hc => h (List.isEmpty_iff.mp hc))]
  · intro d hd
    unfold final_job run_form_fill_job
    rw [hd]
    dsimp only [fail_run]
    rw [List.getLastD_concat]
    exact ⟨rfl, rfl⟩

/-- C3 amended witness: the no-facts entry exercises both the successful
registration and the asynchronous error transition. -/
theorem C3_start_precondition_amended_witness :
    (env_bg_nofacts.files ≠ [] ∧ start_form_fill_job env_bg_nofacts.files = .ok create_job) ∧
    (collect_structured_facts env_bg_nofacts.files =
        .error "No structured facts available. Upload documents again to extract data." ∧
      (final_job env_bg_nofacts).status = "error" ∧
      (final_job env_bg_nofacts).message =
        some "No structured facts available. Upload documents again to extract data.") := by
  refine ⟨⟨by decide, (C3_start_precondition_amended env_bg_nofacts).2.1 (by decide)⟩, rfl, ?_⟩
  exact (C3_start_precondition_amended env_bg_nofacts).2.2 _ rfl

/-! ## Claim C7: empty schema yields a job error and no artifact -/

/-- C7: when the pipeline reaches schema extraction and the extracted
schema holds zero fillable text fields, the job ends in `error` with the
no-fields message, the filled artifact is never built or uploaded, and no
filled-form URL is set. -/
theorem C7_zero_fields_error (env : Env) (doc : Doc)
    (hcf : ∃ ctx, collect_structured_facts env.files = .ok ctx)
    (hdl : env.download = .ok doc)
    (hus : env.uploadSource = .ok ())
    (hp1 : env.persistSchema1 = .ok ())
    (hm1 : env.saveManifest1 = .ok ())
    (hz : (extract_form_schema doc env.formSlug).totalFields = 0) :
    (final_job env).status = "error" ∧
    (final_job env).message = some "No text fields detected in the form." ∧
    StoreEvent.filledUpload ∉ (run_form_fill_job env).events ∧
    (run_form_fill_job env).filledArtifact = none ∧
    (final_job env).filledFormUrl = none := by
  obtain ⟨ctx, hcf⟩ := hcf
  unfold final_job run_form_fill_job
  rw [hcf, hdl, hus, hp1, hm1]
  dsimp only
  rw [if_pos hz]
  dsimp only [fail_run]
  rw [List.getLastD_concat]
  refine ⟨rfl, rfl, by decide, rfl, rfl⟩

/-- C7 witness: a form holding only a checkbox widget. -/
theorem C7_zero_fields_error_witness :
    (extract_form_schema [[wcheckbox]] env_nofield.formSlug).totalFields = 0 ∧
    (final_job env_nofield).status = "error" ∧
    (final_job env_nofield).message = some "No text fields detected in the form." ∧
    StoreEvent.filledUpload ∉ (run_form_fill_job env_nofield).events := by
  refine ⟨by decide, ?_⟩
  have h := C7_zero_fields_error env_nofield [[wcheckbox]] ⟨_, rfl⟩ rfl rfl rfl rfl (by decide)
  exact ⟨h.1, h.2.1, h.2.2.1⟩

/-! ## Extraction-loop lemmas -/

theorem strOrElse_of_truthy (x : Option String) (d d' : String) (h : strTruthy x = true) :
    strOrElse x d = strOrElse x d' := by
  cases x with
  | none => simp [strTruthy] at h
  | some s =>
    have hs : s ≠ "" := by simpa [strTruthy] using h
    simp [strOrElse, hs]

theorem strOrElse_of_falsy (x : Option String) (d : String) (h : strTruthy x = false) :
    strOrElse x d = d := by
  cases x with
  | none => rfl
  | some s =>
    have hs : s = "" := by simpa [strTruthy] using h
    simp [strOrElse, hs]

theorem strOrElse_ne_empty (x : Option String) (d : String) (hd : d ≠ "") :
    strOrElse x d ≠ "" := by
  cases x with
  | none => exact hd
  | some s =>
    by_cases hs : s = ""
    · simpa [strOrElse, hs] using hd
    · simpa [strOrElse, hs] using hs

theorem synth_name_ne_empty (p n : Nat) :
    ("field-" ++ toString p ++ "-" ++ toString n) ≠ "" := by
  intro h
  have hl := congrArg String.length h
  rw [String.length_append, String.length_append, String.length_append] at hl
  have h6 : ("field-" : String).length = 6 := rfl
  have h1 : ("-" : String).length = 1 := rfl
  have h0 : ("" : String).length = 0 := rfl
  rw [h6, h1, h0] at hl
  omega

theorem extract_loop_skip_nontext :
    ∀ (l : List (Nat × Widget)) (acc : List FormFieldSchema),
      extract_fields_loop l acc =
        extract_fields_loop (l.filter (fun pw => is_text_widget pw.2)) acc := by
  intro l
  induction l with
  | nil => intro acc; rfl
  | cons pw rest ih =>
    intro acc
    obtain ⟨p, w⟩ := pw
    by_cases ht : is_text_widget w = true
    · simp only [extract_fields_loop, List.filter_cons, ht, if_true]
      split_ifs with hm <;> exact ih _
    · simp only [extract_fields_loop, List.filter_cons, ht, Bool.false_eq_true, if_false]
      exact ih _

theorem extract_loop_append :
    ∀ (xs ys : List (Nat × Widget)) (acc : List FormFieldSchema),
      extract_fields_loop (xs ++ ys) acc = extract_fields_loop ys (extract_fields_loop xs acc) := by
  intro xs
  induction xs with
  | nil => intro ys acc; rfl
  | cons pw rest ih =>
    intro ys acc
    obtain ⟨p, w⟩ := pw
    simp only [List.cons_append, extract_fields_loop]
    split_ifs with ht hm <;> exact ih _ _

theorem extract_loop_nodup :
    ∀ (l : List (Nat × Widget)) (acc : List FormFieldSchema),
      (acc.map (fun r => r.name)).Nodup →
      ((extract_fields_loop l acc).map (fun r => r.name)).Nodup := by
  intro l
  induction l with
  | nil => intro acc h; exact h
  | cons pw rest ih =>
    intro acc h
    obtain ⟨p, w⟩ := pw
    simp only [extract_fields_loop]
    split_ifs with ht hm
    · exact ih _ h
    · refine ih _ ?_
      rw [List.map_append]
      rw [List.nodup_append]
      refine ⟨h, List.nodup_singleton _, ?_⟩
      intro a ha hb
      simp only [List.map_cons, List.map_nil, List.mem_singleton] at hb
      subst hb
      exact hm ha
    · exact ih _ h

theorem extract_loop_names_ne :
    ∀ (l : List (Nat × Widget)) (acc : List FormFieldSchema),
      (∀ r ∈ acc, r.name ≠ "") →
      ∀ r ∈ extract_fields_loop l acc, r.name ≠ "" := by
  intro l
  induction l with
  | nil => intro acc h; exact h
  | cons pw rest ih =>
    intro acc h
    obtain ⟨p, w⟩ := pw
    simp only [extract_fields_loop]
    split_ifs with ht hm
    · exact ih _ h
    · refine ih _ ?_
      intro r hr
      rcases List.mem_append.mp hr with hr | hr
      · exact h r hr
      · simp only [List.mem_singleton] at hr
        subst hr
        exact strOrElse_ne_empty _ _ (synth_name_ne_empty p acc.length)
    · exact ih _ h

theorem extract_names_nodup (doc : Doc) (slug : String) :
    ((extract_form_schema doc slug).fields.map (fun r => r.name)).Nodup :=
  extract_loop_nodup _ [] (by simp)

theorem extract_names_ne_empty (doc : Doc) (slug : String) :
    ∀ r ∈ (extract_form_schema doc slug).fields, r.name ≠ "" :=
  extract_loop_names_ne _ [] (by simp)

theorem extract_loop_named_all :
    ∀ (l : List (Nat × Widget)) (acc : List FormFieldSchema),
      (∀ pw ∈ l, is_text_widget pw.2 = true) →
      (∀ pw ∈ l, strTruthy pw.2.field_name = true) →
      extract_fields_loop l acc =
        acc ++ dedup_first_by (fun r => r.name)
          ((l.map (fun pw => make_field_record (strOrElse pw.2.field_name "") pw.1 pw.2)).filter
            (fun r => decide (r.name ∉ acc.map (fun q => q.name)))) := by
  intro l
  induction l with
  | nil =>
    intro acc _ _
    simp [extract_fields_loop, dedup_first_by]
  | cons pw rest ih =>
    intro acc htext hnamed
    obtain ⟨p, w⟩ := pw
    have ht : is_text_widget w = true := htext (p, w) (by simp)
    have hn : strTruthy w.field_name = true := hnamed (p, w) (by simp)
    have hfn : strOrElse w.field_name ("field-" ++ toString p ++ "-" ++ toString acc.length)
        = strOrElse w.field_name "" := strOrElse_of_truthy _ _ _ hn
    simp only [extract_fields_loop, ht, if_true]
    rw [hfn]
    by_cases hmem : strOrElse w.field_name "" ∈ acc.map (fun r => r.name)
    · rw [if_pos hmem]
      rw [ih acc (fun q hq => htext q (List.mem_cons_of_mem _ hq))
        (fun q hq => hnamed q (List.mem_cons_of_mem _ hq))]
      congr 1
      simp only [List.map_cons, List.filter_cons]
      rw [if_neg (by simp [make_field_record, hmem])]
    · rw [if_neg hmem]
      rw [ih (acc ++ [make_field_record (strOrElse w.field_name "") p w])
        (fun q hq => htext q (List.mem_cons_of_mem _ hq))
        (fun q hq => hnamed q (List.mem_cons_of_mem _ hq))]
      rw [List.append_assoc]
      congr 1
      simp only [List.map_cons, List.filter_cons]
      rw [if_pos (by simp [make_field_record, hmem])]
      rw [List.singleton_append]
      simp only [dedup_first_by]
      congr 1
      refine congrArg (dedup_first_by (fun r : FormFieldSchema => r.name)) ?_
      rw [List.filter_filter]
      refine List.filter_congr (fun a _ => ?_)
      have hmk : (make_field_record (strOrElse w.field_name "") p w).name
          = strOrElse w.field_name "" := rfl
      rw [hmk]
      by_cases h1 : a.name ∈ acc.map (fun q => q.name) <;>
        by_cases h2 : a.name = strOrElse w.field_name ""
      · exact absurd (h2 ▸ h1) hmem
      · simp [h1, h2, List.map_append, bne_iff_ne, hmk]
      · simp only [h1, h2, List.map_append, bne_iff_ne]
        simp
        exact fun _ => hmk.symm
      · simp [h1, h2, List.map_append, bne_iff_ne, hmk]

/-! ## Claim C4: named-widget extraction as first-occurrence dedup -/

/-- C4: on a document whose text widgets all expose a (non-empty) name,
extraction returns exactly the first-occurrence deduplication of the text
widgets' descriptors in document order, the resulting names are pairwise
distinct, and `totalFields` counts the descriptors. -/
theorem C4_extract_first_occurrence_dedup (doc : Doc) (slug : String)
    (h : ∀ pw ∈ enum_widgets doc, is_text_widget pw.2 = true → strTruthy pw.2.field_name = true) :
    (extract_form_schema doc slug).fields =
      dedup_first_by (fun r => r.name)
        ((text_widgets doc).map
          (fun pw => make_field_record (strOrElse pw.2.field_name "") pw.1 pw.2)) ∧
    ((extract_form_schema doc slug).fields.map (fun r => r.name)).Nodup ∧
    (extract_form_schema doc slug).totalFields = (extract_form_schema doc slug).fields.length := by
  refine ⟨?_, extract_names_nodup doc slug, rfl⟩
  show extract_fields_loop (enum_widgets doc) [] = _
  rw [extract_loop_skip_nontext]
  rw [extract_loop_named_all _ []
    (fun pw hpw => by
      have h2 := List.of_mem_filter hpw
      simpa using h2)
    (fun pw hpw => h pw (List.mem_of_mem_filter hpw) (by
      have h2 := List.of_mem_filter hpw
      simpa using h2))]
  rw [List.nil_append]
  congr 1
  exact List.filter_eq_self.mpr (fun a _ => by simp)

/-- C4 witness: two pages with names `a`, `b`, `a` collapse to the two
distinct descriptors in document order. -/
theorem C4_extract_first_occurrence_dedup_witness :
    (∀ pw ∈ enum_widgets doc_dup_named,
      is_text_widget pw.2 = true → strTruthy pw.2.field_name = true) ∧
    (extract_form_schema doc_dup_named "f").fields =
      dedup_first_by (fun r => r.name)
        ((text_widgets doc_dup_named).map
          (fun pw => make_field_record (strOrElse pw.2.field_name "") pw.1 pw.2)) ∧
    (extract_form_schema doc_dup_named "f").fields.map (fun r => r.name) = ["a", "b"] :=
  ⟨by decide, (C4_extract_first_occurrence_dedup doc_dup_named "f" (by decide)).1, by decide⟩

/-! ## Claim C8: synthesized names (corrected) -/

/-- C8 counterexample: a page holding a text widget explicitly named
`field-0-1` followed by an unnamed text widget.  The name synthesized for
the unnamed widget collides with the explicit one, so the unnamed widget
is silently dropped: the schema keeps one descriptor for two text widgets
instead of assigning a non-colliding identifier. -/
theorem C8_synth_collision_counterexample :
    (text_widgets doc_collide).length = 2 ∧
    (extract_form_schema doc_collide "f").fields.map (fun r => r.name) = ["field-0-1"] := by
  exact ⟨rfl, rfl⟩

/-- C8 amended: every name in the extracted schema is non-empty and the
names are pairwise distinct; an unnamed text widget is assigned the
synthesized name `field-{page}-{ordinal}` (ordinal = number of descriptors
accepted so far) and is appended under that name when it is still fresh,
but it is dropped from the schema when that synthesized name collides with
an already-seen field name. -/
theorem C8_synth_names_amended (doc : Doc) (slug : String)
    (pre : List (Nat × Widget)) (p : Nat) (w : Widget) (post : List (Nat × Widget))
    (hsplit : enum_widgets doc = pre ++ (p, w) :: post)
    (htext : is_text_widget w = true)
    (hname : strTruthy w.field_name = false) :
    (∀ r ∈ (extract_form_schema doc slug).fields, r.name ≠ "") ∧
    ((extract_form_schema doc slug).fields.map (fun r => r.name)).Nodup ∧
    (("field-" ++ toString p ++ "-" ++ toString (extract_fields_loop pre []).length) ∉
        (extract_fields_loop pre []).map (fun r => r.name) →
      extract_fields_loop (pre ++ [(p, w)]) [] =
        extract_fields_loop pre [] ++
          [make_field_record
            ("field-" ++ toString p ++ "-" ++ toString (extract_fields_loop pre []).length)
            p w]) ∧
    (("field-" ++ toString p ++ "-" ++ toString (extract_fields_loop pre []).length) ∈
        (extract_fields_loop pre []).map (fun r => r.name) →
      extract_fields_loop (pre ++ [(p, w)]) [] = extract_fields_loop pre []) := by
  refine ⟨extract_names_ne_empty doc slug, extract_names_nodup doc slug, ?_, ?_⟩
  · intro hfresh
    rw [extract_loop_append]
    simp only [extract_fields_loop, htext, if_true]
    rw [strOrElse_of_falsy _ _ hname]
    rw [if_neg hfresh]
  · intro hcoll
    rw [extract_loop_append]
    simp only [extract_fields_loop, htext, if_true]
    rw [strOrElse_of_falsy _ _ hname]
    rw [if_pos hcoll]

/-- C8 amended witness: a single unnamed text widget receives the
synthesized name `field-0-0` at ordinal `0`. -/
theorem C8_synth_names_amended_witness :
    (is_text_widget (wtext none) = true ∧ strTruthy (wtext none).field_name = false) ∧
    extract_fields_loop ([] ++ [(0, wtext none)]) [] =
      [make_field_record "field-0-0" 0 (wtext none)] ∧
    (extract_form_schema [[wtext none]] "f").fields.map (fun r => r.name) = ["field-0-0"] := by
  refine ⟨⟨rfl, rfl⟩, ?_, rfl⟩
  have h := (C8_synth_names_amended [[wtext none]] "f" [] 0 (wtext none) [] rfl rfl rfl).2.2.1
    (by decide)
  simpa using h

/-! ## Claim C6: per-field failure isolation -/

theorem worker_outcome_status_cases (d : Except String FieldFillDecision) :
    worker_outcome_status d = "filled" ∨ worker_outcome_status d = "skipped" ∨
      worker_outcome_status d = "error" := by
  cases d with
  | error _ => right; right; rfl
  | ok dec =>
    unfold worker_outcome_status
    dsimp only
    split_ifs <;> simp

/-- C6: when the pipeline otherwise succeeds on a form with at least two
fields, a decision-engine failure on one field leaves exactly that field
in status `error` carrying the failure detail, every other field still
reaches its own decision outcome (`filled`, `skipped` or `error`), and the
job still completes. -/
theorem C6_field_failure_isolation (env : Env) (doc : Doc) (fname detail : String)
    (f0 : FormFieldSchema)
    (hcf : ∃ ctx, collect_structured_facts env.files = .ok ctx)
    (hdl : env.download = .ok doc)
    (hus : env.uploadSource = .ok ())
    (hp1 : env.persistSchema1 = .ok ())
    (hm1 : env.saveManifest1 = .ok ())
    (hp2 : env.persistSchema2 = .ok ())
    (huf : env.uploadFilled = .ok ())
    (hm2 : env.saveManifest2 = .ok ())
    (hmem : f0 ∈ (extract_form_schema doc env.formSlug).fields)
    (hf0 : f0.name = fname)
    (htwo : 2 ≤ (extract_form_schema doc env.formSlug).fields.length)
    (herr : env.decide fname = .error detail) :
    (final_job env).status = "complete" ∧
    (∃ st, (final_job env).fields.lookup fname = some st ∧
      st.status = "error" ∧ st.reason = some detail) ∧
    (∀ g ∈ (extract_form_schema doc env.formSlug).fields, g.name ≠ fname →
      ∃ st, (final_job env).fields.lookup g.name = some st ∧
        st.status = worker_outcome_status (env.decide g.name) ∧
        (st.status = "filled" ∨ st.status = "skipped" ∨ st.status = "error")) := by
  obtain ⟨ctx, hcf⟩ := hcf
  have hz : ¬(extract_form_schema doc env.formSlug).totalFields = 0 := by
    rw [extract_totalFields_eq]
    omega
  have hflds : ∀ f ∈ (extract_form_schema doc env.formSlug).fields,
      (((set_job_status (apply_schema_to_job create_job (extract_form_schema doc env.formSlug))
        "filling" none)).fields.lookup f.name).isSome := by
    intro f hf
    rw [set_job_status_fields]
    exact apply_schema_lookup_isSome _ _ f hf
  have hnd : ((extract_form_schema doc env.formSlug).fields.map (fun f => f.name)).Nodup :=
    extract_names_nodup doc env.formSlug
  unfold final_job run_form_fill_job
  rw [hcf, hdl, hus, hp1, hm1]
  dsimp only
  rw [if_neg hz, hp2, huf, hm2]
  dsimp only
  rw [List.getLastD_concat]
  refine ⟨rfl, ?_, ?_⟩
  · obtain ⟨st, hlk, hsts, hr⟩ := fill_loop_lookup_final env.decide
      (extract_form_schema doc env.formSlug).fields
      (set_job_status (apply_schema_to_job create_job (extract_form_schema doc env.formSlug))
        "filling" none) hnd hflds f0 hmem
    rw [hf0] at hlk hsts hr
    refine ⟨st, hlk, ?_, ?_⟩
    · rw [hsts, herr]
      rfl
    · exact hr detail herr
  · intro g hg hgne
    obtain ⟨st, hlk, hsts, _⟩ := fill_loop_lookup_final env.decide
      (extract_form_schema doc env.formSlug).fields
      (set_job_status (apply_schema_to_job create_job (extract_form_schema doc env.formSlug))
        "filling" none) hnd hflds g hg
    refine ⟨st, hlk, hsts, ?_⟩
    rw [hsts]
    exact worker_outcome_status_cases _

/-- C6 witness: three fields `a`, `b`, `c` where the engine fails on `a`,
fills `b` and skips `c`; the job still completes. -/
theorem C6_field_failure_isolation_witness :
    (env_three.decide "a" = .error "Failed to decide form field value." ∧
      2 ≤ (extract_form_schema [[wtext (some "a"), wtext (some "b"), wtext (some "c")]]
        env_three.formSlug).fields.length) ∧
    (final_job env_three).status = "complete" ∧
    (∃ st, (final_job env_three).fields.lookup "a" = some st ∧
      st.status = "error" ∧ st.reason = some "Failed to decide form field value.") := by
  have h := C6_field_failure_isolation env_three
    [[wtext (some "a"), wtext (some "b"), wtext (some "c")]]
    "a" "Failed to decide form field value."
    { name := "a", page := 0, rect := [], label := some "a", placeholder := none,
      maxLength := none, required := false }
    ⟨_, rfl⟩ rfl rfl rfl rfl rfl rfl rfl (by decide) rfl (by decide) rfl
  exact ⟨⟨rfl, by decide⟩, h.1, h.2.1⟩

end FormFillService
